import Mathlib

/-!
Verification of the car-park reservation service: a shallow embedding of the
database layer (`database.ts`), the reservation service (`services/reservation.ts`),
the idempotency middleware (`middleware/idempotency.ts`) and the POST /reserve
route (`routes/carpark.ts`), together with proofs of the specified properties.

Modelling conventions:
* Timestamps are modelled as `Nat` instants (milliseconds).  The source stores
  ISO-8601 strings in SQLite TEXT columns and compares them with SQL `<`/`>`,
  and compares `Date` objects in the service layer; on same-format ISO strings
  both comparisons agree with the instant order, which the `Nat` order models.
* `is_available` is an SQLite 0/1 INTEGER, modelled as `Bool`; the SQL filter
  `is_available = 1` and the JS truthiness check `!spot.is_available` coincide
  on the 0/1 domain.
* The global sql.js database is modelled as an explicit `Store` value passed
  through every operation; SQLite `AUTOINCREMENT` is the `nextReservationId`
  counter.
* Throwing code is modelled with `Except`; a thrown error leaves the caller
  with the store it passed in, which models that the SQL statements up to the
  throw site never executed.
-/

namespace CarPark

/-- Timestamps (milliseconds since epoch); models the ISO-8601 strings of the
source under their order. -/
abbrev Time := Nat

/-- Row of the `car_park_spots` table (`CarParkSpot` in `types.ts`). -/
structure CarParkSpot where
  id : Nat
  spot_number : String
  floor : Nat
  is_available : Bool
deriving DecidableEq, Repr

/-- Row of the `reservations` table (`Reservation` in `types.ts`). -/
structure Reservation where
  id : Nat
  spot_id : Nat
  customer_name : String
  customer_email : String
  start_time : Time
  end_time : Time
  created_at : Time
deriving DecidableEq, Repr

/-- Row of the `idempotency_keys` table (`IdempotencyRecord` in `types.ts`). -/
structure IdempotencyRecord where
  key : String
  response_status : Nat
  response_body : String
  created_at : Time
deriving DecidableEq, Repr

/-- The whole sql.js database: the three tables plus the AUTOINCREMENT counter
of the `reservations` table. -/
structure Store where
  spots : List CarParkSpot
  reservations : List Reservation
  nextReservationId : Nat
  idempotencyKeys : List IdempotencyRecord
deriving DecidableEq, Repr

/-! ### Database layer (`database.ts`) -/

/-- `getSpotById`: `SELECT * FROM car_park_spots WHERE id = ?` (first row). -/
def getSpotById (st : Store) (id : Nat) : Option CarParkSpot :=
  st.spots.find? (fun s => s.id == id)

/-- `hasOverlappingReservation`:
`SELECT COUNT(*) FROM reservations WHERE spot_id = ? AND start_time < ? AND end_time > ?`
bound to `[spotId, endTime, startTime]`, then `count > 0`. -/
def hasOverlappingReservation (st : Store) (spotId : Nat) (startTime endTime : Time) : Bool :=
  decide (0 < (st.reservations.countP
    (fun r => r.spot_id == spotId && decide (r.start_time < endTime)
      && decide (r.end_time > startTime))))

/-- `createReservation`: INSERT a fresh row (id from AUTOINCREMENT, `created_at`
from the clock) and return it. -/
def createReservation (st : Store) (spotId : Nat) (customerName customerEmail : String)
    (startTime endTime : Time) (now : Time) : Reservation × Store :=
  let r : Reservation :=
    { id := st.nextReservationId, spot_id := spotId, customer_name := customerName,
      customer_email := customerEmail, start_time := startTime, end_time := endTime,
      created_at := now }
  (r, { st with reservations := st.reservations ++ [r],
                nextReservationId := st.nextReservationId + 1 })

/-- `deleteReservation`: `DELETE FROM reservations WHERE id = ?`, returning
`changes > 0`. -/
def deleteReservation (st : Store) (id : Nat) : Bool × Store :=
  let remaining := st.reservations.filter (fun r => !(r.id == id))
  (decide (0 < st.reservations.length - remaining.length),
   { st with reservations := remaining })

/-- Comparison used by `ORDER BY floor, spot_number`. -/
def spotLe (a b : CarParkSpot) : Bool :=
  decide (a.floor < b.floor) || (a.floor == b.floor && decide (a.spot_number ≤ b.spot_number))

/-- Insertion step of the `ORDER BY` sort. -/
def insertSpot (x : CarParkSpot) : List CarParkSpot → List CarParkSpot
  | [] => [x]
  | y :: ys => if spotLe x y then x :: y :: ys else y :: insertSpot x ys

/-- `ORDER BY floor, spot_number` as an insertion sort. -/
def sortSpots : List CarParkSpot → List CarParkSpot
  | [] => []
  | x :: xs => insertSpot x (sortSpots xs)

/-- `getAvailableSpots`: `SELECT * FROM car_park_spots WHERE is_available = 1`,
plus `AND floor = ?` when a floor is given, plus
`AND id NOT IN (SELECT spot_id FROM reservations WHERE start_time < ? AND end_time > ?)`
(bound to `[endTime, startTime]`) when BOTH times are given — the source tests
`if (startTime && endTime)` — and finally `ORDER BY floor, spot_number`.
No interval validation happens: an inverted range simply flows into the SQL. -/
def getAvailableSpots (st : Store) (floor? : Option Nat) (startTime? endTime? : Option Time) :
    List CarParkSpot :=
  sortSpots (st.spots.filter (fun s =>
    s.is_available
    && (match floor? with
        | some f => s.floor == f
        | none => true)
    && (match startTime?, endTime? with
        | some t0, some t1 =>
          !(((st.reservations.filter
               (fun r => decide (r.start_time < t1) && decide (r.end_time > t0))).map
             (fun r => r.spot_id)).contains s.id)
        | _, _ => true)))

/-- `getIdempotencyRecord`: `SELECT * FROM idempotency_keys WHERE key = ?`. -/
def getIdempotencyRecord (st : Store) (key : String) : Option IdempotencyRecord :=
  st.idempotencyKeys.find? (fun rec => rec.key == key)

/-- `saveIdempotencyRecord`: `INSERT INTO idempotency_keys ... VALUES (?, ?, ?, ?)`.
`key` is the PRIMARY KEY, so sql.js throws a constraint error — modelled as
`.error ()` — when a record for the key already exists, leaving the table
untouched; otherwise the row is appended. -/
def saveIdempotencyRecord (st : Store) (key : String) (status : Nat) (body : String)
    (now : Time) : Except Unit Store :=
  if st.idempotencyKeys.any (fun rec => rec.key == key) then
    .error ()
  else
    .ok { st with idempotencyKeys :=
            st.idempotencyKeys ++ [{ key := key, response_status := status,
                                     response_body := body, created_at := now }] }

/-- `cleanupExpiredIdempotencyKeys`: computes `cutoff = now - hoursOld*3600*1000`,
runs `DELETE FROM idempotency_keys WHERE created_at < ?` and returns `changes`. -/
def cleanupExpiredIdempotencyKeys (st : Store) (hoursOld : Nat) (now : Time) : Nat × Store :=
  let cutoff := now - hoursOld * 3600000
  let remaining := st.idempotencyKeys.filter (fun rec => !decide (rec.created_at < cutoff))
  (st.idempotencyKeys.length - remaining.length,
   { st with idempotencyKeys := remaining })

/-! ### Reservation service (`services/reservation.ts`) -/

/-- The distinct `throw new ReservationError(message, statusCode)` sites of the
service layer. -/
inductive ReservationErr where
  | spotNotFound
  | spotNotAvailable
  | invalidInterval
  | pastInterval
  | conflict
  | reservationNotFound
deriving DecidableEq, Repr

/-- The `statusCode` carried by each `ReservationError`. -/
def ReservationErr.statusCode : ReservationErr → Nat
  | .spotNotFound => 404
  | .spotNotAvailable => 400
  | .invalidInterval => 400
  | .pastInterval => 400
  | .conflict => 409
  | .reservationNotFound => 404

/-- The `message` carried by each `ReservationError`. -/
def ReservationErr.message : ReservationErr → String
  | .spotNotFound => "Parking spot not found"
  | .spotNotAvailable => "Parking spot is not available for reservations"
  | .invalidInterval => "End time must be after start time"
  | .pastInterval => "Start time cannot be in the past"
  | .conflict => "This spot is already reserved for the requested time period"
  | .reservationNotFound => "Reservation not found"

/-- `ReservationRequest` after schema validation: the core receives instants
already parsed (spec section 6). -/
structure ReservationRequest where
  spotId : Nat
  customerName : String
  customerEmail : String
  startTime : Time
  endTime : Time
deriving DecidableEq, Repr

/-- `ReservationResponse` of `types.ts`. -/
structure ReservationResponse where
  id : Nat
  spotId : Nat
  spotNumber : String
  customerName : String
  customerEmail : String
  startTime : Time
  endTime : Time
  createdAt : Time
deriving DecidableEq, Repr

/-- `makeReservation`: validates in source order — spot exists, spot available,
`start < end`, `start >= now`, no overlap — then inserts and builds the
response.  A throw leaves the store untouched (all checks precede the INSERT). -/
def makeReservation (req : ReservationRequest) (now : Time) (st : Store) :
    Except ReservationErr (ReservationResponse × Store) :=
  match getSpotById st req.spotId with
  | none => .error .spotNotFound
  | some spot =>
    if !spot.is_available then .error .spotNotAvailable
    else if decide (req.endTime ≤ req.startTime) then .error .invalidInterval
    else if decide (req.startTime < now) then .error .pastInterval
    else if hasOverlappingReservation st req.spotId req.startTime req.endTime then
      .error .conflict
    else
      let rs := createReservation st req.spotId req.customerName req.customerEmail
                  req.startTime req.endTime now
      .ok ({ id := rs.1.id, spotId := rs.1.spot_id, spotNumber := spot.spot_number,
             customerName := rs.1.customer_name, customerEmail := rs.1.customer_email,
             startTime := rs.1.start_time, endTime := rs.1.end_time,
             createdAt := rs.1.created_at }, rs.2)

/-- Outcome of `makeReservation` when the storage collaborator may fault:
`fs.writeFileSync` inside `saveDatabase()` can throw, and in `createReservation`
that happens AFTER the INSERT has run against the live database. -/
inductive BookOutcome where
  | ok (resp : ReservationResponse)
  | err (e : ReservationErr)
  | storageFault
deriving DecidableEq, Repr

/-- `makeReservation` with the save-to-disk fault made explicit: `saveFails`
says whether the `saveDatabase()` call inside `createReservation` throws.
The validation/throw structure is exactly that of `makeReservation`; when the
save faults the exception propagates only after `db.run(INSERT ...)` has
modified the live database, so the returned store retains the new row. -/
def makeReservationFaulty (req : ReservationRequest) (now : Time) (st : Store)
    (saveFails : Bool) : BookOutcome × Store :=
  match getSpotById st req.spotId with
  | none => (.err .spotNotFound, st)
  | some spot =>
    if !spot.is_available then (.err .spotNotAvailable, st)
    else if decide (req.endTime ≤ req.startTime) then (.err .invalidInterval, st)
    else if decide (req.startTime < now) then (.err .pastInterval, st)
    else if hasOverlappingReservation st req.spotId req.startTime req.endTime then
      (.err .conflict, st)
    else
      let rs := createReservation st req.spotId req.customerName req.customerEmail
                  req.startTime req.endTime now
      if saveFails then (.storageFault, rs.2)
      else
        (.ok { id := rs.1.id, spotId := rs.1.spot_id, spotNumber := spot.spot_number,
               customerName := rs.1.customer_name, customerEmail := rs.1.customer_email,
               startTime := rs.1.start_time, endTime := rs.1.end_time,
               createdAt := rs.1.created_at }, rs.2)

/-- `cancelReservation`: delete, and throw `404 Reservation not found` when
nothing was deleted.  On the throw the DELETE has removed nothing, so the
caller's store is unchanged. -/
def cancelReservation (id : Nat) (st : Store) : Except ReservationErr Store :=
  let ds := deleteReservation st id
  if !ds.1 then .error .reservationNotFound else .ok ds.2

/-- `AvailableSpot` view of `types.ts`. -/
structure AvailableSpot where
  id : Nat
  spotNumber : String
  floor : Nat
deriving DecidableEq, Repr

/-- `queryAvailability`: projection of `getAvailableSpots`. -/
def queryAvailability (floor? : Option Nat) (startTime? endTime? : Option Time)
    (st : Store) : List AvailableSpot :=
  (getAvailableSpots st floor? startTime? endTime?).map
    (fun s => { id := s.id, spotNumber := s.spot_number, floor := s.floor })

/-! ### JSON values and the `JSON.stringify` / `JSON.parse` collaborators

The idempotency middleware stores `JSON.stringify(body)` and replays a cached
record with `res.json(JSON.parse(record.response_body))`, which Express then
re-serializes with `JSON.stringify`.  These are JavaScript built-ins (external
collaborators), modelled here concretely: a `Json` value type, the exact V8
serialization (escapes `"`, `\`, and control characters, the named escapes
first, `\u00xx` otherwise, everything else raw), and a parser for the JSON
grammar.  Two scope notes: JSON numbers are modelled as integers (every number
this service emits is one; floating-point numerics are outside the model), and
`\uXXXX` escapes denoting surrogate halves are outside the model (the
serializer never emits them). -/

/-- The `"` character. -/
def quoteChar : Char := Char.ofNat 34

/-- The `\` character. -/
def backslashChar : Char := Char.ofNat 92

/-- The opening curly brace. -/
def lbraceChar : Char := Char.ofNat 123

/-- The closing curly brace. -/
def rbraceChar : Char := Char.ofNat 125

/-- A JSON value (numbers restricted to integers, see above). -/
inductive Json where
  | null
  | bool (b : Bool)
  | num (n : Int)
  | str (s : String)
  | arr (elems : List Json)
  | obj (fields : List (String × Json))

/-- Decimal digit character. -/
def digitChar (d : Nat) : Char := Char.ofNat (48 + d)

/-- Lowercase hexadecimal digit character, as V8 prints in `\u00xx`. -/
def hexChar (d : Nat) : Char := if d < 10 then Char.ofNat (48 + d) else Char.ofNat (87 + d)

/-- Decimal expansion of a `Nat`, most significant digit first. -/
def natChars (n : Nat) : List Char :=
  if n = 0 then [digitChar 0] else (Nat.digits 10 n).reverse.map digitChar

/-- Decimal expansion of an `Int`, as `JSON.stringify` prints integers. -/
def intChars (n : Int) : List Char :=
  if n < 0 then '-' :: natChars n.natAbs else natChars n.natAbs

/-- How `JSON.stringify` emits one string character: named escapes for `"`,
`\`, backspace, tab, newline, form feed, carriage return; `\u00xx` for the
remaining control characters; all other characters raw. -/
def escapeChar (c : Char) : List Char :=
  if c = quoteChar then [backslashChar, quoteChar]
  else if c = backslashChar then [backslashChar, backslashChar]
  else if c = Char.ofNat 8 then [backslashChar, 'b']
  else if c = Char.ofNat 9 then [backslashChar, 't']
  else if c = Char.ofNat 10 then [backslashChar, 'n']
  else if c = Char.ofNat 12 then [backslashChar, 'f']
  else if c = Char.ofNat 13 then [backslashChar, 'r']
  else if decide (c.toNat < 32) then
    [backslashChar, 'u', digitChar 0, digitChar 0, hexChar (c.toNat / 16), hexChar (c.toNat % 16)]
  else [c]

/-- A JSON string literal: quote, escaped characters, quote. -/
def escString (s : String) : List Char :=
  quoteChar :: (s.data.map escapeChar).flatten ++ [quoteChar]

mutual

/-- `JSON.stringify` (V8), character list form. -/
def stringifyChars : Json → List Char
  | .null => "null".toList
  | .bool b => (cond b "true" "false").toList
  | .num n => intChars n
  | .str s => escString s
  | .arr es =>
    match es with
    | [] => ['[', ']']
    | v :: vs => '[' :: (stringifyChars v ++ stringifyElemsTail vs) ++ [']']
  | .obj fs =>
    match fs with
    | [] => [lbraceChar, rbraceChar]
    | (k, v) :: fs' =>
      lbraceChar :: (escString k ++ ':' :: stringifyChars v ++ stringifyFieldsTail fs') ++ [rbraceChar]

/-- Second and later array elements, each preceded by a comma. -/
def stringifyElemsTail : List Json → List Char
  | [] => []
  | v :: vs => ',' :: stringifyChars v ++ stringifyElemsTail vs

/-- Second and later object fields, each preceded by a comma. -/
def stringifyFieldsTail : List (String × Json) → List Char
  | [] => []
  | (k, v) :: fs => ',' :: escString k ++ ':' :: stringifyChars v ++ stringifyFieldsTail fs

end

/-- `JSON.stringify` on a value, as the middleware calls it. -/
def JSONstringify (v : Json) : String := String.mk (stringifyChars v)

/-- JSON whitespace. -/
def isJsonWs (c : Char) : Bool :=
  c = Char.ofNat 32 || c = Char.ofNat 9 || c = Char.ofNat 10 || c = Char.ofNat 13

/-- Skip JSON whitespace. -/
def skipWs (cs : List Char) : List Char := cs.dropWhile isJsonWs

/-- Hexadecimal digit value. -/
def parseHexDigit (c : Char) : Option Nat :=
  if decide ('0' ≤ c) && decide (c ≤ '9') then some (c.toNat - 48)
  else if decide ('a' ≤ c) && decide (c ≤ 'f') then some (c.toNat - 87)
  else if decide ('A' ≤ c) && decide (c ≤ 'F') then some (c.toNat - 55)
  else none

/-- Decimal digit value. -/
def digitVal (c : Char) : Option Nat :=
  if decide ('0' ≤ c) && decide (c ≤ '9') then some (c.toNat - 48) else none

/-- Body of a JSON string literal after the opening quote: unescapes until the
closing quote, rejecting raw control characters as `JSON.parse` does.  Fueled;
every step consumes at least one input character. -/
def parseStringBody : Nat → List Char → Option (List Char × List Char)
  | 0, _ => none
  | fuel+1, cs =>
    match cs with
    | [] => none
    | c :: rest =>
      if c = quoteChar then some ([], rest)
      else if c = backslashChar then
        match rest with
        | [] => none
        | e :: rest1 =>
          if e = quoteChar then
            (parseStringBody fuel rest1).map (fun p => (quoteChar :: p.1, p.2))
          else if e = backslashChar then
            (parseStringBody fuel rest1).map (fun p => (backslashChar :: p.1, p.2))
          else if e = '/' then
            (parseStringBody fuel rest1).map (fun p => ('/' :: p.1, p.2))
          else if e = 'b' then
            (parseStringBody fuel rest1).map (fun p => (Char.ofNat 8 :: p.1, p.2))
          else if e = 'f' then
            (parseStringBody fuel rest1).map (fun p => (Char.ofNat 12 :: p.1, p.2))
          else if e = 'n' then
            (parseStringBody fuel rest1).map (fun p => (Char.ofNat 10 :: p.1, p.2))
          else if e = 'r' then
            (parseStringBody fuel rest1).map (fun p => (Char.ofNat 13 :: p.1, p.2))
          else if e = 't' then
            (parseStringBody fuel rest1).map (fun p => (Char.ofNat 9 :: p.1, p.2))
          else if e = 'u' then
            match rest1 with
            | h1 :: h2 :: h3 :: h4 :: rest2 =>
              match parseHexDigit h1, parseHexDigit h2, parseHexDigit h3, parseHexDigit h4 with
              | some d1, some d2, some d3, some d4 =>
                (parseStringBody fuel rest2).map
                  (fun p => (Char.ofNat (d1 * 4096 + d2 * 256 + d3 * 16 + d4) :: p.1, p.2))
              | _, _, _, _ => none
            | _ => none
          else none
      else if decide (c.toNat < 32) then none
      else (parseStringBody fuel rest).map (fun p => (c :: p.1, p.2))

/-- Maximal run of decimal digits, returning their values and the rest. -/
def parseDigits : List Char → List Nat × List Char
  | [] => ([], [])
  | c :: cs =>
    match digitVal c with
    | some d =>
      let p := parseDigits cs
      (d :: p.1, p.2)
    | none => ([], c :: cs)

/-- A JSON number token.  Integers only: a fraction or exponent makes the
token fall outside the model (see the scope note above); leading zeros are
rejected as `JSON.parse` does. -/
def parseNumber (cs : List Char) : Option (Json × List Char) :=
  let np : Bool × List Char :=
    match cs with
    | c :: r => if c = '-' then (true, r) else (false, cs)
    | [] => (false, [])
  let p := parseDigits np.2
  match p.1 with
  | [] => none
  | d :: ds =>
    if d = 0 ∧ ds ≠ [] then none
    else
      let ok : Bool :=
        match p.2 with
        | c :: _ => !(c = '.' || c = 'e' || c = 'E')
        | [] => true
      if ok then
        let value : Nat := Nat.ofDigits 10 (d :: ds).reverse
        some (.num (if np.1 then -(value : Int) else (value : Int)), p.2)
      else none

mutual

/-- A JSON value: `JSON.parse`'s recursive descent, fueled; each recursive
call decrements the fuel by exactly one. -/
def parseValue : Nat → List Char → Option (Json × List Char)
  | 0, _ => none
  | fuel+1, cs =>
    match skipWs cs with
    | [] => none
    | c :: rest =>
      if c = 'n' then
        match rest with
        | 'u' :: 'l' :: 'l' :: r => some (.null, r)
        | _ => none
      else if c = 't' then
        match rest with
        | 'r' :: 'u' :: 'e' :: r => some (.bool true, r)
        | _ => none
      else if c = 'f' then
        match rest with
        | 'a' :: 'l' :: 's' :: 'e' :: r => some (.bool false, r)
        | _ => none
      else if c = quoteChar then
        match parseStringBody (rest.length + 1) rest with
        | some (content, r) => some (.str (String.mk content), r)
        | none => none
      else if c = '[' then
        match skipWs rest with
        | [] => none
        | c1 :: r1 =>
          if c1 = ']' then some (.arr [], r1)
          else
            match parseValue fuel (c1 :: r1) with
            | some (v, r2) =>
              match parseMoreElems fuel r2 with
              | some (vs, r3) => some (.arr (v :: vs), r3)
              | none => none
            | none => none
      else if c = lbraceChar then
        match skipWs rest with
        | [] => none
        | c1 :: r1 =>
          if c1 = rbraceChar then some (.obj [], r1)
          else
            match parseField fuel (c1 :: r1) with
            | some (kv, r2) =>
              match parseMoreFields fuel r2 with
              | some (fs, r3) => some (.obj (kv :: fs), r3)
              | none => none
            | none => none
      else if c = '-' ∨ (digitVal c).isSome then parseNumber (c :: rest)
      else none

/-- After an array element: a comma and another element, or the closing
bracket. -/
def parseMoreElems : Nat → List Char → Option (List Json × List Char)
  | 0, _ => none
  | fuel+1, cs =>
    match skipWs cs with
    | [] => none
    | c :: r =>
      if c = ']' then some ([], r)
      else if c = ',' then
        match parseValue fuel r with
        | some (v, r1) =>
          match parseMoreElems fuel r1 with
          | some (vs, r2) => some (v :: vs, r2)
          | none => none
        | none => none
      else none

/-- One `"key": value` object field. -/
def parseField : Nat → List Char → Option ((String × Json) × List Char)
  | 0, _ => none
  | fuel+1, cs =>
    match skipWs cs with
    | [] => none
    | c :: r =>
      if c = quoteChar then
        match parseStringBody (r.length + 1) r with
        | some (content, r1) =>
          match skipWs r1 with
          | [] => none
          | c2 :: r2 =>
            if c2 = ':' then
              match parseValue fuel r2 with
              | some (v, r3) => some ((String.mk content, v), r3)
              | none => none
            else none
        | none => none
      else none

/-- After an object field: a comma and another field, or the closing brace. -/
def parseMoreFields : Nat → List Char → Option (List (String × Json) × List Char)
  | 0, _ => none
  | fuel+1, cs =>
    match skipWs cs with
    | [] => none
    | c :: r =>
      if c = rbraceChar then some ([], r)
      else if c = ',' then
        match parseField fuel r with
        | some (kv, r1) =>
          match parseMoreFields fuel r1 with
          | some (fs, r2) => some (kv :: fs, r2)
          | none => none
        | none => none
      else none

end

/-- `JSON.parse`: parse one value and require only whitespace after it. -/
def JSONparse (s : String) : Option Json :=
  match parseValue (s.data.length + 1) s.data with
  | some (v, rest) => if skipWs rest = [] then some v else none
  | none => none

/-- Decimal digits of `n`, most significant first (`[0]` for zero). -/
def bigDigits (n : Nat) : List Nat :=
  if n = 0 then [0] else (Nat.digits 10 n).reverse

mutual

/-- Fuel that suffices for `parseValue` on the serialization of a value. -/
def fuelNeed : Json → Nat
  | .null => 1
  | .bool _ => 1
  | .num _ => 1
  | .str _ => 1
  | .arr [] => 1
  | .arr (v :: vs) => 1 + fuelNeed v + elemsNeed vs
  | .obj [] => 1
  | .obj ((_, v) :: fs) => 2 + fuelNeed v + fieldsNeed fs

/-- Fuel that suffices for `parseMoreElems` on a serialized element tail. -/
def elemsNeed : List Json → Nat
  | [] => 1
  | v :: vs => 1 + fuelNeed v + elemsNeed vs

/-- Fuel that suffices for `parseMoreFields` on a serialized field tail. -/
def fieldsNeed : List (String × Json) → Nat
  | [] => 1
  | (_, v) :: fs => 2 + fuelNeed v + fieldsNeed fs

end

/-- The characters that legally follow a serialized number inside a larger
serialized value (nothing, or a separator/closer). -/
def numBoundary : List Char → Prop
  | [] => True
  | c :: _ => digitVal c = none ∧ c ≠ '.' ∧ c ≠ 'e' ∧ c ≠ 'E'

/-! ### Request validation, the POST /reserve route, and the idempotency
middleware (`types.ts`, `routes/carpark.ts`, `middleware/idempotency.ts`) -/

/-- Field lookup in a JSON object. -/
def jsonField (fields : List (String × Json)) (k : String) : Option Json :=
  (fields.find? (fun f => f.1 == k)).map (fun f => f.2)

/-- Modelled from the spec: the boundary layer hands the core "start/end
instants ... already parsed and type-checked".  `z.string().datetime()` plus
`new Date(...)` are external collaborators (zod and the JS Date built-in);
under the `Time = Nat` abstraction an instant is carried in the JSON as its
decimal numeral, and this decoder maps that numeral to the instant, failing on
anything else. -/
def parseDatetime (s : String) : Option Time :=
  if s.data ≠ [] ∧ s.data.all (fun c => (digitVal c).isSome) then
    some (Nat.ofDigits 10 ((s.data.map (fun c => c.toNat - 48)).reverse))
  else none

/-- `ReservationRequestSchema.parse` of `types.ts`: an object with
`spotId: z.number().int().positive()`, `customerName: z.string().min(1).max(100)`,
`customerEmail: z.string().email()`, `startTime`/`endTime: z.string().datetime()`.
On failure the route answers 400 with `details: error.errors`; the issue list
is modelled as a JSON array naming the offending fields (zod's exact issue
objects are external to the repository; no claim depends on their shape).
zod's email regex is likewise external and modelled as at-sign presence. -/
def parseReservationRequest (body : Json) : Except Json ReservationRequest :=
  match body with
  | .obj fields =>
    let spotId? : Option Nat :=
      match jsonField fields "spotId" with
      | some (.num n) => if 0 < n then some n.toNat else none
      | _ => none
    let name? : Option String :=
      match jsonField fields "customerName" with
      | some (.str s) => if 1 ≤ s.length ∧ s.length ≤ 100 then some s else none
      | _ => none
    let email? : Option String :=
      match jsonField fields "customerEmail" with
      | some (.str s) => if s.data.contains '@' then some s else none
      | _ => none
    let start? : Option Time :=
      match jsonField fields "startTime" with
      | some (.str s) => parseDatetime s
      | _ => none
    let end? : Option Time :=
      match jsonField fields "endTime" with
      | some (.str s) => parseDatetime s
      | _ => none
    match spotId?, name?, email?, start?, end? with
    | some a, some b, some c, some d, some e =>
      .ok { spotId := a, customerName := b, customerEmail := c, startTime := d, endTime := e }
    | _, _, _, _, _ =>
      .error (.arr
        ((if spotId?.isNone then [Json.str "spotId"] else [])
          ++ (if name?.isNone then [Json.str "customerName"] else [])
          ++ (if email?.isNone then [Json.str "customerEmail"] else [])
          ++ (if start?.isNone then [Json.str "startTime"] else [])
          ++ (if end?.isNone then [Json.str "endTime"] else [])))
  | _ => .error (.arr [Json.str "Expected object, received other"])

/-- An HTTP response as produced through `res.status(...).json(body)`: the
status code and the value handed to `res.json`; on the wire the body is
`JSON.stringify` of that value (Express's default serialization). -/
structure HttpResponse where
  status : Nat
  body : Json

/-- `ReservationResponse` as serialized into the 201 body.  Under the
`Time = Nat` abstraction the instants appear as JSON numbers (the source
returns their ISO strings). -/
def reservationResponseJson (r : ReservationResponse) : Json :=
  .obj [("id", .num (r.id : Int)), ("spotId", .num (r.spotId : Int)),
        ("spotNumber", .str r.spotNumber), ("customerName", .str r.customerName),
        ("customerEmail", .str r.customerEmail), ("startTime", .num (r.startTime : Int)),
        ("endTime", .num (r.endTime : Int)), ("createdAt", .num (r.createdAt : Int))]

/-- The POST /reserve handler of `routes/carpark.ts`: validate the body (400
with details on a `ZodError`), call `makeReservation` (201 on success, the
error's `statusCode` and message on a `ReservationError`). -/
def reserveRoute (body : Json) (now : Time) (st : Store) : HttpResponse × Store :=
  match parseReservationRequest body with
  | .error details =>
    ({ status := 400,
       body := .obj [("success", .bool false), ("error", .str "Invalid request body"),
                     ("details", details)] }, st)
  | .ok req =>
    match makeReservation req now st with
    | .ok rs =>
      ({ status := 201,
         body := .obj [("success", .bool true), ("data", reservationResponseJson rs.1),
                       ("message", .str "Reservation created successfully")] }, rs.2)
    | .error e =>
      ({ status := e.statusCode,
         body := .obj [("success", .bool false), ("error", .str e.message)] }, st)

/-- `requireIdempotencyKey` composed with the /reserve handler
(`router.post('/reserve', requireIdempotencyKey, handler)`):
reject a missing or badly sized `x-idempotency-key` header with 400 (these two
responses are sent before `res.json` is patched, so they are never cached);
on a cache hit reply `res.status(record.response_status).json(JSON.parse(record.response_body))`
without running the handler; on a miss patch `res.json`, run the handler —
note the patch is installed BEFORE the handler validates the body — and let
the patched `res.json` store `(key, res.statusCode, JSON.stringify(body))`,
swallowing a failed insert. -/
def postReserve (key? : Option String) (body : Json) (now : Time) (st : Store) :
    HttpResponse × Store :=
  match key? with
  | none =>
    ({ status := 400,
       body := .obj [("error", .str "Missing required header"),
                     ("message", .str "The x-idempotency-key header is required for this endpoint")] },
     st)
  | some key =>
    if key.length < 1 ∨ key.length > 255 then
      ({ status := 400,
         body := .obj [("error", .str "Invalid idempotency key"),
                       ("message", .str "Idempotency key must be between 1 and 255 characters")] },
       st)
    else
      match getIdempotencyRecord st key with
      | some rec =>
        ({ status := rec.response_status, body := (JSONparse rec.response_body).getD .null }, st)
      | none =>
        let rs := reserveRoute body now st
        match saveIdempotencyRecord rs.2 key rs.1.status (JSONstringify rs.1.body) now with
        | .ok st' => (rs.1, st')
        | .error _ => (rs.1, rs.2)

/-! ### Reachable states (successful book / cancel from an empty ledger) -/

/-- One successful mutating operation of the reservation ledger. -/
inductive Step : Store → Store → Prop where
  | book (req : ReservationRequest) (now : Time) (st : Store) (resp : ReservationResponse)
      (st' : Store) : makeReservation req now st = .ok (resp, st') → Step st st'
  | cancel (id : Nat) (st st' : Store) : cancelReservation id st = .ok st' → Step st st'

/-- States reachable from a store with no reservations (any seeded spots, any
idempotency cache) by successful book and cancel operations. -/
inductive Reachable : Store → Prop where
  | empty (spots : List CarParkSpot) (cache : List IdempotencyRecord) :
      Reachable { spots := spots, reservations := [], nextReservationId := 1,
                  idempotencyKeys := cache }
  | step (st st' : Store) : Reachable st → Step st st' → Reachable st'

/-- Half-open intersection of two stored reservations on the same spot. -/
def Overlapping (r1 r2 : Reservation) : Prop :=
  r1.spot_id = r2.spot_id ∧ r1.start_time < r2.end_time ∧ r1.end_time > r2.start_time

/-- The committed-reservation invariant: distinct stored reservations on one
spot never intersect under the half-open rule. -/
def ReservationsDisjoint (st : Store) : Prop :=
  ∀ r1 ∈ st.reservations, ∀ r2 ∈ st.reservations, r1 ≠ r2 → ¬Overlapping r1 r2

/-- Auxiliary invariant: stored ids are below the AUTOINCREMENT counter. -/
def IdsBounded (st : Store) : Prop :=
  ∀ r ∈ st.reservations, r.id < st.nextReservationId

/-- The reservation row inserted by a successful `makeReservation`. -/
def bookedRow (req : ReservationRequest) (now : Time) (st : Store) : Reservation :=
  (createReservation st req.spotId req.customerName req.customerEmail
    req.startTime req.endTime now).1

/-- The store after a successful `makeReservation`. -/
def bookedStore (req : ReservationRequest) (now : Time) (st : Store) : Store :=
  (createReservation st req.spotId req.customerName req.customerEmail
    req.startTime req.endTime now).2

/-! ## Theorems -/

/-- The overlap predicate is the half-open intersection test. -/
theorem hasOverlapping_iff (st : Store) (sid : Nat) (t0 t1 : Time) :
    hasOverlappingReservation st sid t0 t1 = true ↔
      ∃ r ∈ st.reservations, r.spot_id = sid ∧ r.start_time < t1 ∧ r.end_time > t0 := by
  simp [hasOverlappingReservation, List.countP_pos_iff, and_assoc]

/-- Negative form of the overlap test. -/
theorem hasOverlapping_eq_false_iff (st : Store) (sid : Nat) (t0 t1 : Time) :
    hasOverlappingReservation st sid t0 t1 = false ↔
      ∀ r ∈ st.reservations, ¬(r.spot_id = sid ∧ r.start_time < t1 ∧ r.end_time > t0) := by
  rw [← Bool.not_eq_true, hasOverlapping_iff]
  push_neg
  simp [not_and]

/-- What a successful `makeReservation` implies: every precondition held and
the store gained exactly the new row. -/
theorem makeReservation_ok_elim {req : ReservationRequest} {now : Time} {st : Store}
    {resp : ReservationResponse} {st' : Store}
    (h : makeReservation req now st = .ok (resp, st')) :
    ∃ spot, getSpotById st req.spotId = some spot ∧ spot.is_available = true ∧
      req.startTime < req.endTime ∧ now ≤ req.startTime ∧
      hasOverlappingReservation st req.spotId req.startTime req.endTime = false ∧
      st' = bookedStore req now st ∧
      resp = { id := st.nextReservationId, spotId := req.spotId,
               spotNumber := spot.spot_number, customerName := req.customerName,
               customerEmail := req.customerEmail, startTime := req.startTime,
               endTime := req.endTime, createdAt := now } := by
  unfold makeReservation at h
  cases hs : getSpotById st req.spotId with
  | none => rw [hs] at h; exact absurd h (by simp)
  | some spot =>
    rw [hs] at h
    simp only at h
    refine ⟨spot, rfl, ?_⟩
    by_cases ha : spot.is_available = true
    · rw [ha] at h
      simp only [Bool.not_true, Bool.false_eq_true, if_false] at h
      by_cases hb : req.endTime ≤ req.startTime
      · simp [hb] at h
      by_cases hc : req.startTime < now
      · simp [hb, hc] at h
      by_cases hd : hasOverlappingReservation st req.spotId req.startTime req.endTime = true
      · simp [hb, hc, hd] at h
      rw [if_neg (by simp [hb]), if_neg (by simp [hc]), if_neg hd] at h
      rw [Except.ok.injEq, Prod.mk.injEq] at h
      refine ⟨ha, Nat.not_le.mp hb, Nat.not_lt.mp hc,
        by rwa [Bool.not_eq_true] at hd, h.2.symm, ?_⟩
      rw [← h.1]
      rfl
    · have ha' : spot.is_available = false := by simpa using ha
      simp [ha'] at h

/-- Converse: when every precondition holds `makeReservation` succeeds and
returns the inserted row. -/
theorem makeReservation_ok_intro (req : ReservationRequest) (now : Time) (st : Store)
    (spot : CarParkSpot)
    (h1 : getSpotById st req.spotId = some spot) (h2 : spot.is_available = true)
    (h3 : req.startTime < req.endTime) (h4 : now ≤ req.startTime)
    (h5 : hasOverlappingReservation st req.spotId req.startTime req.endTime = false) :
    makeReservation req now st =
      .ok ({ id := st.nextReservationId, spotId := req.spotId,
             spotNumber := spot.spot_number, customerName := req.customerName,
             customerEmail := req.customerEmail, startTime := req.startTime,
             endTime := req.endTime, createdAt := now }, bookedStore req now st) := by
  unfold makeReservation
  rw [h1]
  simp [h2, h5, Nat.not_le.mpr h3, Nat.not_lt.mpr h4, bookedStore, createReservation]

/-- **C2**: `hasOverlappingReservation(spotId, start, end)` returns true iff
some stored reservation `r` has `r.spot_id = spotId`, `r.start_time < end` and
`r.end_time > start` (both strict); being a pure function of the store it has
no side effects.  Consequently, after booking `[t, t+2h)` on a spot, booking
`[t+2h, t+4h)` on the same spot also succeeds (touching endpoints do not
intersect), provided the second interval was not already blocked by some other
pre-existing reservation. -/
theorem C2_overlap_test (st : Store) (sid : Nat) (t0 t1 : Time) :
    (hasOverlappingReservation st sid t0 t1 = true ↔
      ∃ r ∈ st.reservations, r.spot_id = sid ∧ r.start_time < t1 ∧ r.end_time > t0)
    ∧ (∀ (name email name2 email2 : String) (now t : Time) (resp : ReservationResponse)
        (st' : Store),
        makeReservation ⟨sid, name, email, t, t + 7200000⟩ now st = .ok (resp, st') →
        hasOverlappingReservation st sid (t + 7200000) (t + 14400000) = false →
        ∃ resp2 st'',
          makeReservation ⟨sid, name2, email2, t + 7200000, t + 14400000⟩ now st' =
            .ok (resp2, st'')) := by
  constructor
  · exact hasOverlapping_iff st sid t0 t1
  · intro name email name2 email2 now t resp st' h1 h2
    obtain ⟨spot, hspot, havail, _, hnow, _, hst', _⟩ := makeReservation_ok_elim h1
    have hnow' : now ≤ t := hnow
    refine ⟨_, _, makeReservation_ok_intro ⟨sid, name2, email2, t + 7200000, t + 14400000⟩
      now st' spot ?_ havail (by show t + 7200000 < t + 14400000; norm_num)
      (le_trans hnow' (Nat.le_add_right t 7200000)) ?_⟩
    · rw [hst']; exact hspot
    · rw [hst']
      have hcount : st.reservations.countP
          (fun r => r.spot_id == sid && decide (r.start_time < t + 14400000)
            && decide (r.end_time > t + 7200000)) = 0 := by
        have h2' := h2
        unfold hasOverlappingReservation at h2'
        simpa using h2'
      unfold hasOverlappingReservation bookedStore createReservation
      simp only [List.countP_append, hcount]
      simp [List.countP_cons]

/-- Witness for C2 at a concrete store: one active spot, empty ledger; booking
`[0, 2h)` succeeds, and booking `[2h, 4h)` right after also succeeds. -/
theorem C2_witness :
    ∃ resp2 st'',
      makeReservation ⟨1, "Bob", "b@c.d", 7200000, 14400000⟩ 0
          ⟨[⟨1, "A1", 1, true⟩], [⟨1, 1, "Al", "a@b.c", 0, 7200000, 0⟩], 2, []⟩ =
        .ok (resp2, st'') :=
  (C2_overlap_test ⟨[⟨1, "A1", 1, true⟩], [], 1, []⟩ 1 0 7200000).2
    "Al" "a@b.c" "Bob" "b@c.d" 0 0
    ⟨1, 1, "A1", "Al", "a@b.c", 0, 7200000, 0⟩
    ⟨[⟨1, "A1", 1, true⟩], [⟨1, 1, "Al", "a@b.c", 0, 7200000, 0⟩], 2, []⟩
    (by rfl) (by rfl)

/-- **C4**: the idempotency store is insert-if-absent: a second `store` for an
existing key fails (the PRIMARY KEY constraint) leaving the table unchanged,
a `store` for an absent key appends exactly the new record, and no successful
`store` ever changes what `lookup` returns for an already-stored key. -/
theorem C4_insert_if_absent (st : Store) (key : String) (status : Nat)
    (body : String) (now : Time) :
    (∀ rec, getIdempotencyRecord st key = some rec →
      saveIdempotencyRecord st key status body now = .error ())
    ∧ (getIdempotencyRecord st key = none →
      saveIdempotencyRecord st key status body now =
        .ok { st with idempotencyKeys := st.idempotencyKeys ++
          [{ key := key, response_status := status, response_body := body,
             created_at := now }] })
    ∧ (∀ (key2 : String) (status2 : Nat) (body2 : String) (now2 : Time) (st2 : Store)
        (rec : IdempotencyRecord),
        getIdempotencyRecord st key = some rec →
        saveIdempotencyRecord st key2 status2 body2 now2 = .ok st2 →
        getIdempotencyRecord st2 key = some rec) := by
  refine ⟨?_, ?_, ?_⟩
  · intro rec hrec
    unfold getIdempotencyRecord at hrec
    have hmem := List.find?_some hrec
    have : st.idempotencyKeys.any (fun r => r.key == key) = true :=
      List.any_eq_true.mpr ⟨rec, List.mem_of_find?_eq_some hrec, hmem⟩
    unfold saveIdempotencyRecord
    rw [if_pos this]
  · intro hnone
    have : st.idempotencyKeys.any (fun r => r.key == key) = false := by
      rw [List.any_eq_false]
      intro r hr
      exact List.find?_eq_none.mp hnone r hr
    unfold saveIdempotencyRecord
    rw [this]
    simp
  · intro key2 status2 body2 now2 st2 rec hrec hsave
    unfold saveIdempotencyRecord at hsave
    by_cases hdup : st.idempotencyKeys.any (fun r => r.key == key2) = true
    · rw [if_pos hdup] at hsave; cases hsave
    · rw [if_neg hdup] at hsave
      injection hsave with hsave
      rw [← hsave]
      unfold getIdempotencyRecord at hrec ⊢
      rw [List.find?_append, hrec]
      rfl

/-- Witness for C4: storing twice under one key — the second insert fails —
then storing under another key preserves the first key's record. -/
theorem C4_witness :
    saveIdempotencyRecord ⟨[], [], 1, [⟨"k", 201, "body", 5⟩]⟩ "k" 500 "other" 9 = .error ()
    ∧ getIdempotencyRecord ⟨[], [], 1, [⟨"k", 201, "body", 5⟩, ⟨"k2", 400, "b2", 9⟩]⟩ "k" =
        some ⟨"k", 201, "body", 5⟩ :=
  ⟨(C4_insert_if_absent ⟨[], [], 1, [⟨"k", 201, "body", 5⟩]⟩ "k" 500 "other" 9).1
      ⟨"k", 201, "body", 5⟩ (by rfl),
   (C4_insert_if_absent ⟨[], [], 1, [⟨"k", 201, "body", 5⟩]⟩ "k" 500 "other" 9).2.2
      "k2" 400 "b2" 9 ⟨[], [], 1, [⟨"k", 201, "body", 5⟩, ⟨"k2", 400, "b2", 9⟩]⟩
      ⟨"k", 201, "body", 5⟩ (by rfl) (by rfl)⟩

/-- **C6**: the purge removes exactly the records with `created_at` strictly
before `now - hoursOld` hours, returns how many it removed, and every record
created inside the window survives. -/
theorem C6_purge (st : Store) (hoursOld : Nat) (now : Time) :
    (∀ rec, rec ∈ (cleanupExpiredIdempotencyKeys st hoursOld now).2.idempotencyKeys ↔
      rec ∈ st.idempotencyKeys ∧ ¬(rec.created_at < now - hoursOld * 3600000))
    ∧ (cleanupExpiredIdempotencyKeys st hoursOld now).1 =
        (st.idempotencyKeys.filter
          (fun rec => decide (rec.created_at < now - hoursOld * 3600000))).length
    ∧ (∀ rec ∈ st.idempotencyKeys, now - hoursOld * 3600000 ≤ rec.created_at →
        rec ∈ (cleanupExpiredIdempotencyKeys st hoursOld now).2.idempotencyKeys) := by
  refine ⟨?_, ?_, ?_⟩
  · intro rec
    unfold cleanupExpiredIdempotencyKeys
    simp [List.mem_filter]
  · unfold cleanupExpiredIdempotencyKeys
    simp only
    rw [← List.countP_eq_length_filter, ← List.countP_eq_length_filter]
    have h := st.idempotencyKeys.length_eq_countP_add_countP
      (fun rec => decide (rec.created_at < now - hoursOld * 3600000))
    simp only [decide_eq_true_eq, decide_not] at h
    omega
  · intro rec hmem hlive
    unfold cleanupExpiredIdempotencyKeys
    simp only [List.mem_filter]
    exact ⟨hmem, by simpa using Nat.not_lt.mpr hlive⟩

/-- Witness for C6: with a 24h window, a record created 23h59m before `now`
survives the purge. -/
theorem C6_witness :
    (⟨"k", 201, "b", 100000000 - 86340000⟩ : IdempotencyRecord) ∈
      (cleanupExpiredIdempotencyKeys ⟨[], [], 1, [⟨"k", 201, "b", 100000000 - 86340000⟩]⟩
        24 100000000).2.idempotencyKeys :=
  (C6_purge ⟨[], [], 1, [⟨"k", 201, "b", 100000000 - 86340000⟩]⟩ 24 100000000).2.2
    ⟨"k", 201, "b", 100000000 - 86340000⟩ (by simp) (by norm_num)

/-- Insertion keeps exactly the elements. -/
theorem mem_insertSpot (x y : CarParkSpot) (l : List CarParkSpot) :
    y ∈ insertSpot x l ↔ y = x ∨ y ∈ l := by
  induction l with
  | nil => simp [insertSpot]
  | cons z zs ih =>
    unfold insertSpot
    by_cases h : spotLe x z = true
    · simp [h]
    · simp only [if_neg h, List.mem_cons, ih]
      tauto

/-- The `ORDER BY` sort only permutes: membership is unchanged. -/
theorem mem_sortSpots (y : CarParkSpot) (l : List CarParkSpot) :
    y ∈ sortSpots l ↔ y ∈ l := by
  induction l with
  | nil => simp [sortSpots]
  | cons z zs ih => simp [sortSpots, mem_insertSpot, ih]

/-- Membership characterization of `getAvailableSpots`. -/
theorem mem_getAvailableSpots_iff (st : Store) (floor? : Option Nat)
    (t0? t1? : Option Time) (s : CarParkSpot) :
    s ∈ getAvailableSpots st floor? t0? t1? ↔
      (s ∈ st.spots ∧ s.is_available = true
        ∧ (∀ f, floor? = some f → s.floor = f)
        ∧ (∀ t0 t1, t0? = some t0 → t1? = some t1 →
            ¬∃ r ∈ st.reservations, r.spot_id = s.id ∧ r.start_time < t1 ∧ r.end_time > t0)) := by
  rcases floor? with _ | f <;> rcases t0? with _ | t0 <;> rcases t1? with _ | t1 <;>
    (unfold getAvailableSpots; rw [mem_sortSpots, List.mem_filter])
  all_goals simp [List.mem_filter, and_assoc]
  all_goals intros
  all_goals exact ⟨fun h x hx hsid hst => by
      by_contra hend
      exact absurd hsid (h x hx hst (Nat.lt_of_not_le hend)),
    fun h x hx hst hend hsid => absurd (h x hx hsid hst) (Nat.not_le.mpr hend)⟩

/-- **C7**: the availability query returns exactly the active spots, restricted
to the given floor when one is supplied, and — only when both `start` and
`end` are supplied — excluding every spot holding a reservation intersecting
`[start, end)` half-open; with a single bound the time filter is silently not
applied, and no interval validation happens (the function is total, so an
inverted range yields a result, never an error).  `queryAvailability` is its
field projection. -/
theorem C7_availability (st : Store) (floor? : Option Nat) (t0? t1? : Option Time) :
    (∀ s, s ∈ getAvailableSpots st floor? t0? t1? ↔
      (s ∈ st.spots ∧ s.is_available = true
        ∧ (∀ f, floor? = some f → s.floor = f)
        ∧ (∀ t0 t1, t0? = some t0 → t1? = some t1 →
            ¬∃ r ∈ st.reservations, r.spot_id = s.id ∧ r.start_time < t1 ∧ r.end_time > t0)))
    ∧ (∀ a, a ∈ queryAvailability floor? t0? t1? st ↔
        ∃ s ∈ getAvailableSpots st floor? t0? t1?,
          a = { id := s.id, spotNumber := s.spot_number, floor := s.floor }) := by
  constructor
  · exact fun s => mem_getAvailableSpots_iff st floor? t0? t1? s
  · intro a
    unfold queryAvailability
    rw [List.mem_map]
    constructor
    · rintro ⟨s, hs, rfl⟩; exact ⟨s, hs, rfl⟩
    · rintro ⟨s, hs, rfl⟩; exact ⟨s, hs, rfl⟩

/-- Witness for C7: a floor-1 active spot with a conflicting reservation is
excluded, while the untouched floor-1 active spot remains; a concrete query
with both bounds returns exactly the free spot. -/
theorem C7_witness :
    (⟨2, "A2", 1, true⟩ : CarParkSpot) ∈
      getAvailableSpots
        ⟨[⟨1, "A1", 1, true⟩, ⟨2, "A2", 1, true⟩, ⟨3, "B1", 2, true⟩, ⟨4, "A3", 1, false⟩],
         [⟨1, 1, "Al", "a@b.c", 1000, 5000, 0⟩], 2, []⟩
        (some 1) (some 2000) (some 4000)
    ∧ ¬((⟨1, "A1", 1, true⟩ : CarParkSpot) ∈
      getAvailableSpots
        ⟨[⟨1, "A1", 1, true⟩, ⟨2, "A2", 1, true⟩, ⟨3, "B1", 2, true⟩, ⟨4, "A3", 1, false⟩],
         [⟨1, 1, "Al", "a@b.c", 1000, 5000, 0⟩], 2, []⟩
        (some 1) (some 2000) (some 4000)) := by
  constructor
  · exact ((C7_availability
      ⟨[⟨1, "A1", 1, true⟩, ⟨2, "A2", 1, true⟩, ⟨3, "B1", 2, true⟩, ⟨4, "A3", 1, false⟩],
       [⟨1, 1, "Al", "a@b.c", 1000, 5000, 0⟩], 2, []⟩
      (some 1) (some 2000) (some 4000)).1 ⟨2, "A2", 1, true⟩).mpr
      (by refine ⟨by simp, rfl, by simp, ?_⟩
          rintro t0 t1 h1 h2 ⟨r, hr, hsid, _⟩
          simp at hr
          subst hr
          simp at hsid)
  · intro hmem
    have h := ((C7_availability
      ⟨[⟨1, "A1", 1, true⟩, ⟨2, "A2", 1, true⟩, ⟨3, "B1", 2, true⟩, ⟨4, "A3", 1, false⟩],
       [⟨1, 1, "Al", "a@b.c", 1000, 5000, 0⟩], 2, []⟩
      (some 1) (some 2000) (some 4000)).1 ⟨1, "A1", 1, true⟩).mp hmem
    exact h.2.2.2 2000 4000 rfl rfl
      ⟨⟨1, 1, "Al", "a@b.c", 1000, 5000, 0⟩, by simp, rfl, by norm_num, by norm_num⟩

/-- **C8**: `cancel(id)` fails with the 404 `Reservation not found` error when
no stored reservation has that id — in particular cancelling an
already-cancelled id is again NotFound, not success — and otherwise
hard-deletes exactly the rows with that id, touching nothing else. -/
theorem C8_cancel (id : Nat) (st : Store) :
    ((∀ r ∈ st.reservations, r.id ≠ id) →
        cancelReservation id st = .error .reservationNotFound)
    ∧ (∀ r0 ∈ st.reservations, r0.id = id →
        ∃ st', cancelReservation id st = .ok st'
          ∧ (∀ r, r ∈ st'.reservations ↔ r ∈ st.reservations ∧ r.id ≠ id)
          ∧ st'.spots = st.spots ∧ st'.idempotencyKeys = st.idempotencyKeys
          ∧ cancelReservation id st' = .error .reservationNotFound) := by
  constructor
  · intro hnone
    have hfil : st.reservations.filter (fun r => !(r.id == id)) = st.reservations :=
      List.filter_eq_self.mpr (fun r hr => by simpa using hnone r hr)
    unfold cancelReservation deleteReservation
    simp only [hfil, Nat.sub_self]
    rfl
  · intro r0 hr0 hid
    have hlt : (st.reservations.filter (fun r => !(r.id == id))).length <
        st.reservations.length :=
      List.length_filter_lt_length_iff_exists.mpr ⟨r0, hr0, by simp [hid]⟩
    have hok : cancelReservation id st =
        .ok { st with reservations := st.reservations.filter (fun r => !(r.id == id)) } := by
      unfold cancelReservation deleteReservation
      simp [Nat.sub_pos_of_lt hlt]
    refine ⟨_, hok, ?_, rfl, rfl, ?_⟩
    · intro r
      simp [List.mem_filter]
    · have hfil : (st.reservations.filter (fun r => !(r.id == id))).filter
          (fun r => !(r.id == id)) = st.reservations.filter (fun r => !(r.id == id)) :=
        List.filter_eq_self.mpr (fun r hr => (List.mem_filter.mp hr).2)
      unfold cancelReservation deleteReservation
      simp only [hfil, Nat.sub_self]
      rfl

/-- Witness for C8: cancelling the only reservation succeeds and empties the
ledger; cancelling it again is NotFound. -/
theorem C8_witness :
    ∃ st', cancelReservation 1 ⟨[⟨1, "A1", 1, true⟩], [⟨1, 1, "Al", "a@b.c", 0, 10, 0⟩], 2, []⟩ =
        .ok st'
      ∧ (∀ r, r ∈ st'.reservations ↔
          r ∈ [(⟨1, 1, "Al", "a@b.c", 0, 10, 0⟩ : Reservation)] ∧ r.id ≠ 1)
      ∧ st'.spots = [⟨1, "A1", 1, true⟩] ∧ st'.idempotencyKeys = []
      ∧ cancelReservation 1 st' = .error .reservationNotFound :=
  (C8_cancel 1 ⟨[⟨1, "A1", 1, true⟩], [⟨1, 1, "Al", "a@b.c", 0, 10, 0⟩], 2, []⟩).2
    ⟨1, 1, "Al", "a@b.c", 0, 10, 0⟩ (by simp) rfl

/-- What a successful `cancelReservation` does: exactly the `DELETE`. -/
theorem cancelReservation_ok_elim {id : Nat} {st st' : Store}
    (h : cancelReservation id st = .ok st') :
    st' = { st with reservations := st.reservations.filter (fun r => !(r.id == id)) } := by
  unfold cancelReservation deleteReservation at h
  by_cases hc : 0 < st.reservations.length -
      (st.reservations.filter (fun r => !(r.id == id))).length
  · simp [hc] at h
    exact h.symm
  · simp [hc] at h

/-- The inductive invariant: ids stay below the counter and distinct stored
reservations on one spot never intersect. -/
theorem reachable_invariant (st : Store) (h : Reachable st) :
    IdsBounded st ∧ ReservationsDisjoint st := by
  induction h with
  | empty spots cache =>
    exact ⟨fun r hr => absurd hr (List.not_mem_nil r), fun r1 h1 => absurd h1 (List.not_mem_nil r1)⟩
  | step st st' _ hstep ih =>
    obtain ⟨ihB, ihD⟩ := ih
    cases hstep with
    | book req now _ resp st2 hbook =>
      obtain ⟨spot, _, _, _, _, hnoov, hst', _⟩ := makeReservation_ok_elim hbook
      subst hst'
      have hno : ∀ r ∈ st.reservations,
          ¬(r.spot_id = req.spotId ∧ r.start_time < req.endTime ∧ r.end_time > req.startTime) :=
        (hasOverlapping_eq_false_iff st req.spotId req.startTime req.endTime).mp hnoov
      constructor
      · intro r hr
        unfold bookedStore createReservation at hr ⊢
        simp only [List.mem_append, List.mem_singleton] at hr
        rcases hr with hr | hr
        · exact Nat.lt_succ_of_lt (ihB r hr)
        · rw [hr]; exact Nat.lt_succ_self _
      · intro r1 h1 r2 h2 hne
        unfold bookedStore createReservation at h1 h2
        simp only [List.mem_append, List.mem_singleton] at h1 h2
        rcases h1 with h1 | h1 <;> rcases h2 with h2 | h2
        · exact ihD r1 h1 r2 h2 hne
        · rw [h2]
          rintro ⟨hsid, hlt, hgt⟩
          exact hno r1 h1 ⟨hsid, hlt, hgt⟩
        · rw [h1]
          rintro ⟨hsid, hlt, hgt⟩
          exact hno r2 h2 ⟨hsid.symm, hgt, hlt⟩
        · exact absurd (h1.trans h2.symm) hne
    | cancel id _ st2 hcancel =>
      rw [cancelReservation_ok_elim hcancel]
      constructor
      · intro r hr
        exact ihB r (List.mem_filter.mp hr).1
      · intro r1 h1 r2 h2 hne
        exact ihD r1 (List.mem_filter.mp h1).1 r2 (List.mem_filter.mp h2).1 hne

/-- **C1**: in every state reachable from an empty store by successful book and
cancel operations, no two distinct stored reservations on the same spot have
intersecting intervals under the half-open rule. -/
theorem C1_no_double_booking (st : Store) (h : Reachable st) : ReservationsDisjoint st :=
  (reachable_invariant st h).2

/-- Witness for C1: the state reached by booking `[0, 2h)` on spot 1 from an
empty store satisfies the invariant. -/
theorem C1_witness :
    ReservationsDisjoint ⟨[⟨1, "A1", 1, true⟩], [⟨1, 1, "Al", "a@b.c", 0, 7200000, 0⟩], 2, []⟩ :=
  C1_no_double_booking _
    (Reachable.step _ _ (Reachable.empty [⟨1, "A1", 1, true⟩] [])
      (Step.book ⟨1, "Al", "a@b.c", 0, 7200000⟩ 0 _
        ⟨1, 1, "A1", "Al", "a@b.c", 0, 7200000, 0⟩ _ (by rfl)))

/-- **C3 (counterexample)**: the claim says a spot that exists but is not
active fails with NotFound.  On the code, booking an existing inactive spot
fails with the distinct 400 `Parking spot is not available for reservations`
error, not with the 404 NotFound error. -/
theorem C3_counterexample :
    makeReservation ⟨1, "Al", "a@b.c", 10, 20⟩ 0 ⟨[⟨1, "A1", 1, false⟩], [], 1, []⟩ =
      .error .spotNotAvailable
    ∧ ReservationErr.spotNotAvailable ≠ ReservationErr.spotNotFound
    ∧ ReservationErr.statusCode .spotNotAvailable = 400
    ∧ ReservationErr.statusCode .spotNotFound = 404 :=
  ⟨by rfl, by decide, rfl, rfl⟩

/-- **C3 (amended)**: `book` checks its preconditions in source order with the
first failure winning: a missing spot is NotFound (404); an existing but
inactive spot is the distinct NotAvailable error (400), not NotFound; then
`start >= end` is InvalidInterval; then `start < now` is PastInterval; then an
overlap is Conflict; otherwise the reservation is persisted and returned. -/
theorem C3_amended (req : ReservationRequest) (now : Time) (st : Store) :
    (makeReservation req now st = .error .spotNotFound ↔ getSpotById st req.spotId = none)
    ∧ (makeReservation req now st = .error .spotNotAvailable ↔
        ∃ spot, getSpotById st req.spotId = some spot ∧ spot.is_available = false)
    ∧ (makeReservation req now st = .error .invalidInterval ↔
        ∃ spot, getSpotById st req.spotId = some spot ∧ spot.is_available = true ∧
          req.endTime ≤ req.startTime)
    ∧ (makeReservation req now st = .error .pastInterval ↔
        ∃ spot, getSpotById st req.spotId = some spot ∧ spot.is_available = true ∧
          req.startTime < req.endTime ∧ req.startTime < now)
    ∧ (makeReservation req now st = .error .conflict ↔
        ∃ spot, getSpotById st req.spotId = some spot ∧ spot.is_available = true ∧
          req.startTime < req.endTime ∧ now ≤ req.startTime ∧
          hasOverlappingReservation st req.spotId req.startTime req.endTime = true)
    ∧ (∀ spot, getSpotById st req.spotId = some spot → spot.is_available = true →
        req.startTime < req.endTime → now ≤ req.startTime →
        hasOverlappingReservation st req.spotId req.startTime req.endTime = false →
        makeReservation req now st =
          .ok ({ id := st.nextReservationId, spotId := req.spotId,
                 spotNumber := spot.spot_number, customerName := req.customerName,
                 customerEmail := req.customerEmail, startTime := req.startTime,
                 endTime := req.endTime, createdAt := now }, bookedStore req now st)) := by
  rcases hs : getSpotById st req.spotId with _ | spot
  · have hcomp : makeReservation req now st = .error .spotNotFound := by
      unfold makeReservation
      rw [hs]
    refine ⟨?_, ?_, ?_, ?_, ?_, ?_⟩ <;> simp [hcomp, hs]
  · by_cases ha : spot.is_available = true
    · by_cases hb : req.endTime ≤ req.startTime
      · have hcomp : makeReservation req now st = .error .invalidInterval := by
          unfold makeReservation
          rw [hs]
          simp [ha, hb]
        refine ⟨?_, ?_, ?_, ?_, ?_, ?_⟩ <;>
          simp [hcomp, hs, ha, hb, Nat.not_lt.mpr hb]
      · by_cases hc : req.startTime < now
        · have hcomp : makeReservation req now st = .error .pastInterval := by
            unfold makeReservation
            rw [hs]
            simp [ha, hb, hc]
          refine ⟨?_, ?_, ?_, ?_, ?_, ?_⟩ <;>
            simp [hcomp, hs, ha, hb, hc, Nat.lt_of_not_le hb]
        · by_cases hd : hasOverlappingReservation st req.spotId req.startTime req.endTime = true
          · have hcomp : makeReservation req now st = .error .conflict := by
              unfold makeReservation
              rw [hs]
              simp [ha, hb, hc, hd]
            refine ⟨?_, ?_, ?_, ?_, ?_, ?_⟩ <;>
              simp [hcomp, hs, ha, hb, hc, hd, Nat.lt_of_not_le hb, Nat.not_lt.mp hc]
          · have hd' : hasOverlappingReservation st req.spotId req.startTime req.endTime =
                false := by rwa [Bool.not_eq_true] at hd
            have hcomp := makeReservation_ok_intro req now st spot hs ha
              (Nat.lt_of_not_le hb) (Nat.not_lt.mp hc) hd'
            refine ⟨?_, ?_, ?_, ?_, ?_, ?_⟩ <;>
              simp [hcomp, hs, ha, hb, hc, hd', Nat.lt_of_not_le hb, Nat.not_lt.mp hc]
    · have ha' : spot.is_available = false := by
        rwa [Bool.not_eq_true] at ha
      have hcomp : makeReservation req now st = .error .spotNotAvailable := by
        unfold makeReservation
        rw [hs]
        simp [ha']
      refine ⟨?_, ?_, ?_, ?_, ?_, ?_⟩ <;> simp [hcomp, hs, ha']

/-- Witness for C3 (amended): with every precondition satisfied, the book call
returns the fresh reservation. -/
theorem C3_witness :
    makeReservation ⟨1, "Al", "a@b.c", 10, 20⟩ 5 ⟨[⟨1, "A1", 1, true⟩], [], 1, []⟩ =
      .ok (⟨1, 1, "A1", "Al", "a@b.c", 10, 20, 5⟩,
        ⟨[⟨1, "A1", 1, true⟩], [⟨1, 1, "Al", "a@b.c", 10, 20, 5⟩], 2, []⟩) :=
  (C3_amended ⟨1, "Al", "a@b.c", 10, 20⟩ 5 ⟨[⟨1, "A1", 1, true⟩], [], 1, []⟩).2.2.2.2.2
    ⟨1, "A1", 1, true⟩ (by rfl) rfl (by norm_num) (by norm_num) (by rfl)

/-- `makeReservationFaulty` with a healthy storage collaborator agrees with
`makeReservation`. -/
theorem makeReservationFaulty_no_fault (req : ReservationRequest) (now : Time) (st : Store) :
    makeReservationFaulty req now st false =
      (match makeReservation req now st with
        | .ok rs => (.ok rs.1, rs.2)
        | .error e => (.err e, st)) := by
  unfold makeReservationFaulty makeReservation
  rcases getSpotById st req.spotId with _ | spot
  · rfl
  · by_cases ha : spot.is_available = true
    · by_cases hb : req.endTime ≤ req.startTime
      · simp [ha, hb]
      · by_cases hc : req.startTime < now
        · simp [ha, hb, hc]
        · by_cases hd : hasOverlappingReservation st req.spotId req.startTime req.endTime = true
          · simp [ha, hb, hc, hd]
          · simp [ha, hb, hc, hd]
    · have ha2 : spot.is_available = false := by rwa [Bool.not_eq_true] at ha
      simp [ha2]

/-- **C9**: `book` is all-or-nothing on its validation errors — any `.err`
outcome leaves the stored reservations untouched — but NOT under a storage
fault: when `saveDatabase()` throws inside `createReservation`, the INSERT has
already run, so the call reports a storage fault while the new reservation row
remains in the live database (concrete failing input below). -/
theorem C9_book_not_all_or_nothing :
    (∀ (req : ReservationRequest) (now : Time) (st : Store) (saveFails : Bool)
        (e : ReservationErr) (st' : Store),
      makeReservationFaulty req now st saveFails = (.err e, st') → st' = st)
    ∧ (makeReservationFaulty ⟨1, "Al", "a@b.c", 10, 20⟩ 0
        ⟨[⟨1, "A1", 1, true⟩], [], 1, []⟩ true).1 = .storageFault
    ∧ (makeReservationFaulty ⟨1, "Al", "a@b.c", 10, 20⟩ 0
        ⟨[⟨1, "A1", 1, true⟩], [], 1, []⟩ true).2.reservations =
      [⟨1, 1, "Al", "a@b.c", 10, 20, 0⟩]
    ∧ (⟨[⟨1, "A1", 1, true⟩], [], 1, []⟩ : Store).reservations = [] := by
  refine ⟨?_, by rfl, by rfl, rfl⟩
  intro req now st saveFails e st' h
  unfold makeReservationFaulty at h
  rcases hs : getSpotById st req.spotId with _ | spot
  · rw [hs] at h
    simp only at h
    cases h
    rfl
  · rw [hs] at h
    simp only at h
    by_cases ha : spot.is_available = true
    · rw [ha] at h
      simp only [Bool.not_true, Bool.false_eq_true, if_false] at h
      by_cases hb : req.endTime ≤ req.startTime
      · rw [if_pos (by simpa using hb)] at h
        cases h
        rfl
      · rw [if_neg (by simpa using hb)] at h
        by_cases hc : req.startTime < now
        · rw [if_pos (by simpa using hc)] at h
          cases h
          rfl
        · rw [if_neg (by simpa using hc)] at h
          by_cases hd : hasOverlappingReservation st req.spotId req.startTime req.endTime = true
          · rw [if_pos hd] at h
            cases h
            rfl
          · rw [if_neg hd] at h
            rcases saveFails with _ | _
            · simp at h
            · simp at h
    · have ha2 : spot.is_available = false := by rwa [Bool.not_eq_true] at ha
      rw [ha2] at h
      rw [if_pos (by decide)] at h
      cases h
      rfl

/-- Witness for C9's universally quantified part: a validation failure (spot
2 does not exist) leaves the store exactly as it was. -/
theorem C9_witness :
    (⟨[⟨1, "A1", 1, true⟩], [], 1, []⟩ : Store) = ⟨[⟨1, "A1", 1, true⟩], [], 1, []⟩ :=
  C9_book_not_all_or_nothing.1 ⟨2, "Al", "a@b.c", 10, 20⟩ 0
    ⟨[⟨1, "A1", 1, true⟩], [], 1, []⟩ true .spotNotFound
    ⟨[⟨1, "A1", 1, true⟩], [], 1, []⟩ (by rfl)

/-! ### Round-trip of the JSON collaborators: `JSONparse (JSONstringify v) = some v` -/

theorem charLit_quote : quoteChar = '\u0022' := rfl

theorem charLit_backslash : backslashChar = '\u005C' := rfl

theorem charLit_lbrace : lbraceChar = '\u007B' := rfl

theorem charLit_rbrace : rbraceChar = '\u007D' := rfl

theorem charLit_bs : Char.ofNat 8 = '\u0008' := rfl

theorem charLit_tab : Char.ofNat 9 = '\u0009' := rfl

theorem charLit_lf : Char.ofNat 10 = '\u000A' := rfl

theorem charLit_ff : Char.ofNat 12 = '\u000C' := rfl

theorem charLit_cr : Char.ofNat 13 = '\u000D' := rfl

theorem digitVal_digitChar {d : Nat} (h : d < 10) : digitVal (digitChar d) = some d := by
  interval_cases d <;> decide

theorem digitChar_not_special {d : Nat} (h : d < 10) :
    isJsonWs (digitChar d) = false ∧ digitChar d ≠ 'n' ∧ digitChar d ≠ 't'
    ∧ digitChar d ≠ 'f' ∧ digitChar d ≠ quoteChar ∧ digitChar d ≠ '['
    ∧ digitChar d ≠ lbraceChar ∧ digitChar d ≠ '-' := by
  interval_cases d <;> decide

theorem parseHexDigit_hexChar {d : Nat} (h : d < 16) : parseHexDigit (hexChar d) = some d := by
  interval_cases d <;> decide

theorem skipWs_cons {c : Char} (t : List Char) (h : isJsonWs c = false) :
    skipWs (c :: t) = c :: t := by
  simp [skipWs, List.dropWhile_cons, h]

theorem bigDigits_lt (n : Nat) : ∀ d ∈ bigDigits n, d < 10 := by
  intro d hd
  unfold bigDigits at hd
  by_cases hn : n = 0
  · simp [hn] at hd
    omega
  · rw [if_neg hn, List.mem_reverse] at hd
    exact Nat.digits_lt_base (by norm_num) hd

theorem bigDigits_ne_nil (n : Nat) : bigDigits n ≠ [] := by
  unfold bigDigits
  by_cases hn : n = 0
  · simp [hn]
  · rw [if_neg hn]
    simp [hn, Nat.digits_ne_nil_iff_ne_zero]

theorem bigDigits_no_leading_zero (n : Nat) {d : Nat} {ds : List Nat}
    (h : bigDigits n = d :: ds) : ¬(d = 0 ∧ ds ≠ []) := by
  unfold bigDigits at h
  by_cases hn : n = 0
  · rw [if_pos hn] at h
    injection h with h1 h2
    simp [h2]
  · rw [if_neg hn] at h
    rintro ⟨rfl, -⟩
    have hne : Nat.digits 10 n ≠ [] := Nat.digits_ne_nil_iff_ne_zero.mpr hn
    have hlast : (Nat.digits 10 n).getLast hne ≠ 0 := Nat.getLast_digit_ne_zero 10 hn
    have h1 : ((Nat.digits 10 n).reverse).head? = some 0 := by rw [h]; rfl
    rw [List.head?_reverse, List.getLast?_eq_getLast _ hne] at h1
    injection h1 with h2
    exact hlast h2

theorem ofDigits_bigDigits (n : Nat) : Nat.ofDigits 10 (bigDigits n).reverse = n := by
  unfold bigDigits
  by_cases hn : n = 0
  · simp [hn, Nat.ofDigits]
  · rw [if_neg hn, List.reverse_reverse, Nat.ofDigits_digits]

theorem natChars_eq (n : Nat) : natChars n = (bigDigits n).map digitChar := by
  unfold natChars bigDigits
  by_cases hn : n = 0
  · simp [hn]
  · simp [hn]

theorem parseDigits_map_digitChar (ds : List Nat) (hds : ∀ d ∈ ds, d < 10)
    (rest : List Char) (hrest : ∀ c t, rest = c :: t → digitVal c = none) :
    parseDigits (ds.map digitChar ++ rest) = (ds, rest) := by
  induction ds with
  | nil =>
    cases hr : rest with
    | nil => rfl
    | cons c t =>
      simp only [List.map_nil, List.nil_append]
      unfold parseDigits
      rw [hrest c t hr]
  | cons d ds ih =>
    have hd : d < 10 := hds d (by simp)
    simp only [List.map_cons, List.cons_append]
    unfold parseDigits
    rw [digitVal_digitChar hd, ih (fun x hx => hds x (by simp [hx]))]

theorem parseNumber_intChars (n : Int) (rest : List Char) (hb : numBoundary rest) :
    parseNumber (intChars n ++ rest) = some (.num n, rest) := by
  obtain ⟨d, ds, hdd⟩ : ∃ d ds, bigDigits n.natAbs = d :: ds := by
    rcases hbd : bigDigits n.natAbs with _ | ⟨d, ds⟩
    · exact absurd hbd (bigDigits_ne_nil _)
    · exact ⟨d, ds, rfl⟩
  have hlz := bigDigits_no_leading_zero n.natAbs hdd
  have hval : Nat.ofDigits 10 (d :: ds).reverse = n.natAbs := by
    rw [← hdd]
    exact ofDigits_bigDigits n.natAbs
  have hrest : ∀ c t, rest = c :: t → digitVal c = none := by
    intro c t h
    rw [h] at hb
    exact hb.1
  have hdig := parseDigits_map_digitChar _ (bigDigits_lt n.natAbs) rest hrest
  have hdig3 : parseDigits (List.map digitChar (d :: ds) ++ rest) = (d :: ds, rest) := by
    rw [← hdd]
    exact hdig
  by_cases hn : n < 0
  · have hic : intChars n = '-' :: (bigDigits n.natAbs).map digitChar := by
      unfold intChars
      rw [if_pos hn, natChars_eq]
    rw [hic, hdd, List.cons_append]
    unfold parseNumber
    simp only [reduceIte, hdig3]
    rw [if_neg hlz]
    have hneg : -((Nat.ofDigits 10 (d :: ds).reverse : Nat) : Int) = n := by
      rw [hval]
      omega
    rcases rest with _ | ⟨c, t⟩
    · simp only [reduceIte, hneg]
    · obtain ⟨-, h2, h3, h4⟩ := hb
      have hcnd : (!(decide (c = '.') || decide (c = 'e') || decide (c = 'E'))) = true := by
        simp [h2, h3, h4]
      simp only [hcnd, reduceIte, hneg]
  · have hd10 : d < 10 := bigDigits_lt n.natAbs d (by rw [hdd]; simp)
    have hnotminus : ¬(digitChar d = '-') := (digitChar_not_special hd10).2.2.2.2.2.2.2
    have hic : intChars n = (bigDigits n.natAbs).map digitChar := by
      unfold intChars
      rw [if_neg hn, natChars_eq]
    rw [hic, hdd]
    unfold parseNumber
    simp only [List.map_cons, List.cons_append, hnotminus, reduceIte]
    simp only [← List.cons_append, ← List.map_cons, hdig3]
    rw [if_neg hlz]
    have hpos : ((Nat.ofDigits 10 (d :: ds).reverse : Nat) : Int) = n := by
      rw [hval]
      omega
    rcases rest with _ | ⟨c, t⟩
    · simp
      rwa [List.reverse_cons] at hpos
    · obtain ⟨-, h2, h3, h4⟩ := hb
      have hcnd : (!(decide (c = '.') || decide (c = 'e') || decide (c = 'E'))) = true := by
        simp [h2, h3, h4]
      simp [hcnd]
      rwa [List.reverse_cons] at hpos

theorem psb_quote (f : Nat) (rest : List Char) :
    parseStringBody (f + 1) (quoteChar :: rest) = some ([], rest) := by
  unfold parseStringBody
  simp only [reduceIte]

theorem psb_escapeChar (f : Nat) (c : Char) (rest : List Char) :
    parseStringBody (f + 1) (escapeChar c ++ rest) =
      (parseStringBody f rest).map (fun p => (c :: p.1, p.2)) := by
  by_cases h1 : c = quoteChar
  · subst h1
    unfold escapeChar
    simp only [charLit_quote, charLit_backslash, charLit_lbrace, charLit_rbrace, charLit_bs, charLit_tab, charLit_lf, charLit_ff, charLit_cr,
        Char.reduceEq, reduceIte, List.cons_append, List.nil_append]
    conv_lhs => unfold parseStringBody
    simp only [charLit_quote, charLit_backslash, charLit_lbrace, charLit_rbrace, charLit_bs, charLit_tab, charLit_lf, charLit_ff, charLit_cr,
        Char.reduceEq, reduceIte]
  · by_cases h2 : c = backslashChar
    · subst h2
      unfold escapeChar
      simp only [charLit_quote, charLit_backslash, charLit_lbrace, charLit_rbrace, charLit_bs, charLit_tab, charLit_lf, charLit_ff, charLit_cr,
        Char.reduceEq, reduceIte, List.cons_append, List.nil_append]
      conv_lhs => unfold parseStringBody
      simp only [charLit_quote, charLit_backslash, charLit_lbrace, charLit_rbrace, charLit_bs, charLit_tab, charLit_lf, charLit_ff, charLit_cr,
        Char.reduceEq, reduceIte]
    · by_cases h3 : c = Char.ofNat 8
      · subst h3
        unfold escapeChar
        simp only [charLit_quote, charLit_backslash, charLit_lbrace, charLit_rbrace, charLit_bs, charLit_tab, charLit_lf, charLit_ff, charLit_cr,
        Char.reduceEq, reduceIte, List.cons_append, List.nil_append]
        conv_lhs => unfold parseStringBody
        simp only [charLit_quote, charLit_backslash, charLit_lbrace, charLit_rbrace, charLit_bs, charLit_tab, charLit_lf, charLit_ff, charLit_cr,
        Char.reduceEq, reduceIte]
      · by_cases h4 : c = Char.ofNat 9
        · subst h4
          unfold escapeChar
          simp only [charLit_quote, charLit_backslash, charLit_lbrace, charLit_rbrace, charLit_bs, charLit_tab, charLit_lf, charLit_ff, charLit_cr,
        Char.reduceEq, reduceIte, List.cons_append, List.nil_append]
          conv_lhs => unfold parseStringBody
          simp only [charLit_quote, charLit_backslash, charLit_lbrace, charLit_rbrace, charLit_bs, charLit_tab, charLit_lf, charLit_ff, charLit_cr,
        Char.reduceEq, reduceIte]
        · by_cases h5 : c = Char.ofNat 10
          · subst h5
            unfold escapeChar
            simp only [charLit_quote, charLit_backslash, charLit_lbrace, charLit_rbrace, charLit_bs, charLit_tab, charLit_lf, charLit_ff, charLit_cr,
        Char.reduceEq, reduceIte, List.cons_append, List.nil_append]
            conv_lhs => unfold parseStringBody
            simp only [charLit_quote, charLit_backslash, charLit_lbrace, charLit_rbrace, charLit_bs, charLit_tab, charLit_lf, charLit_ff, charLit_cr,
        Char.reduceEq, reduceIte]
          · by_cases h6 : c = Char.ofNat 12
            · subst h6
              unfold escapeChar
              simp only [charLit_quote, charLit_backslash, charLit_lbrace, charLit_rbrace, charLit_bs, charLit_tab, charLit_lf, charLit_ff, charLit_cr,
        Char.reduceEq, reduceIte, List.cons_append, List.nil_append]
              conv_lhs => unfold parseStringBody
              simp only [charLit_quote, charLit_backslash, charLit_lbrace, charLit_rbrace, charLit_bs, charLit_tab, charLit_lf, charLit_ff, charLit_cr,
        Char.reduceEq, reduceIte]
            · by_cases h7 : c = Char.ofNat 13
              · subst h7
                unfold escapeChar
                simp only [charLit_quote, charLit_backslash, charLit_lbrace, charLit_rbrace, charLit_bs, charLit_tab, charLit_lf, charLit_ff, charLit_cr,
        Char.reduceEq, reduceIte, List.cons_append, List.nil_append]
                conv_lhs => unfold parseStringBody
                simp only [charLit_quote, charLit_backslash, charLit_lbrace, charLit_rbrace, charLit_bs, charLit_tab, charLit_lf, charLit_ff, charLit_cr,
        Char.reduceEq, reduceIte]
              · by_cases h8 : c.toNat < 32
                · have e1 : parseHexDigit (hexChar (c.toNat / 16)) = some (c.toNat / 16) :=
                      parseHexDigit_hexChar (by omega)
                  have e2 : parseHexDigit (hexChar (c.toNat % 16)) = some (c.toNat % 16) :=
                      parseHexDigit_hexChar (by omega)
                  have e3 : 0 * 4096 + 0 * 256 + c.toNat / 16 * 16 + c.toNat % 16 = c.toNat := by
                      omega
                  unfold escapeChar
                  rw [if_neg h1, if_neg h2, if_neg h3, if_neg h4, if_neg h5, if_neg h6, if_neg h7,
                    if_pos (decide_eq_true h8)]
                  simp only [List.cons_append, List.nil_append]
                  conv_lhs => unfold parseStringBody
                  simp only [charLit_quote, charLit_backslash, charLit_lbrace, charLit_rbrace, charLit_bs, charLit_tab, charLit_lf, charLit_ff, charLit_cr,
        Char.reduceEq, reduceIte]
                  rw [show parseHexDigit (digitChar 0) = some 0 from by decide, e1, e2]
                  simp only [e3, Char.ofNat_toNat]
                · unfold escapeChar
                  rw [if_neg h1, if_neg h2, if_neg h3, if_neg h4, if_neg h5, if_neg h6, if_neg h7,
                    if_neg (by simpa using h8)]
                  simp only [List.cons_append, List.nil_append]
                  conv_lhs => unfold parseStringBody
                  dsimp only
                  rw [if_neg h1, if_neg h2, if_neg (by simpa using h8)]

theorem escapeChar_length_pos (c : Char) : 1 ≤ (escapeChar c).length := by
  unfold escapeChar
  split_ifs <;> simp

theorem flatten_escape_length (s : List Char) :
    s.length ≤ ((s.map escapeChar).flatten).length := by
  induction s with
  | nil => simp
  | cons c s ih =>
    simp only [List.map_cons, List.flatten_cons, List.length_append, List.length_cons]
    have := escapeChar_length_pos c
    omega

theorem parseStringBody_escString (s : List Char) : ∀ (fuel : Nat) (rest : List Char),
    s.length < fuel →
    parseStringBody fuel ((s.map escapeChar).flatten ++ quoteChar :: rest) = some (s, rest) := by
  induction s with
  | nil =>
    intro fuel rest h
    obtain ⟨f, rfl⟩ : ∃ f, fuel = f + 1 := ⟨fuel - 1, by omega⟩
    simpa using psb_quote f rest
  | cons c s ih =>
    intro fuel rest h
    obtain ⟨f, rfl⟩ : ∃ f, fuel = f + 1 := ⟨fuel - 1, by omega⟩
    simp only [List.map_cons, List.flatten_cons, List.append_assoc]
    rw [psb_escapeChar f c _, ih f rest (by simpa using h)]
    rfl

theorem fuelNeed_pos : ∀ v : Json, 1 ≤ fuelNeed v := by
  intro v
  cases v with
  | null => simp [fuelNeed]
  | bool b => simp [fuelNeed]
  | num n => simp [fuelNeed]
  | str s => simp [fuelNeed]
  | arr es => cases es <;> (simp only [fuelNeed]; omega)
  | obj fs =>
    rcases fs with _ | ⟨⟨k, v⟩, fs⟩ <;> (simp only [fuelNeed]; omega)

theorem elemsNeed_pos : ∀ vs : List Json, 1 ≤ elemsNeed vs := by
  intro vs
  cases vs <;> (simp only [elemsNeed]; omega)

theorem fieldsNeed_pos : ∀ fs : List (String × Json), 1 ≤ fieldsNeed fs := by
  intro fs
  rcases fs with _ | ⟨⟨k, v⟩, fs⟩ <;> (simp only [fieldsNeed]; omega)

theorem intChars_length_pos (n : Int) : 1 ≤ (intChars n).length := by
  unfold intChars
  by_cases hn : n < 0
  · simp [hn]
  · rw [if_neg hn, natChars_eq]
    rcases hdd : bigDigits n.natAbs with _ | ⟨d, ds⟩
    · exact absurd hdd (bigDigits_ne_nil _)
    · simp

theorem escString_length_ge (s : String) : 2 ≤ (escString s).length := by
  unfold escString
  simp

mutual

theorem fuelNeed_le_length : ∀ v : Json, fuelNeed v ≤ (stringifyChars v).length
  | .null => by simp [fuelNeed, stringifyChars]
  | .bool b => by cases b <;> simp [fuelNeed, stringifyChars]
  | .num n => by
    have := intChars_length_pos n
    simp only [fuelNeed, stringifyChars]
    omega
  | .str s => by
    have := escString_length_ge s
    simp only [fuelNeed, stringifyChars]
    omega
  | .arr [] => by simp [fuelNeed, stringifyChars]
  | .arr (v :: vs) => by
    have h1 := fuelNeed_le_length v
    have h2 := elemsNeed_le_length vs
    simp only [fuelNeed, stringifyChars, List.length_cons, List.length_append]
    omega
  | .obj [] => by simp [fuelNeed, stringifyChars]
  | .obj ((k, v) :: fs) => by
    have h1 := fuelNeed_le_length v
    have h2 := fieldsNeed_le_length fs
    have h3 := escString_length_ge k
    simp only [fuelNeed, stringifyChars, List.length_cons, List.length_append]
    omega

theorem elemsNeed_le_length : ∀ vs : List Json,
    elemsNeed vs ≤ (stringifyElemsTail vs).length + 1
  | [] => by simp [elemsNeed, stringifyElemsTail]
  | v :: vs => by
    have h1 := fuelNeed_le_length v
    have h2 := elemsNeed_le_length vs
    simp only [elemsNeed, stringifyElemsTail, List.length_cons, List.length_append]
    omega

theorem fieldsNeed_le_length : ∀ fs : List (String × Json),
    fieldsNeed fs ≤ (stringifyFieldsTail fs).length + 1
  | [] => by simp [fieldsNeed, stringifyFieldsTail]
  | (k, v) :: fs => by
    have h1 := fuelNeed_le_length v
    have h2 := fieldsNeed_le_length fs
    have h3 := escString_length_ge k
    simp only [fieldsNeed, stringifyFieldsTail, List.length_cons, List.length_append]
    omega

end

theorem escString_head (s : String) :
    escString s = quoteChar :: ((s.data.map escapeChar).flatten ++ [quoteChar]) := rfl

theorem stringify_head (v : Json) :
    ∃ c cs, stringifyChars v = c :: cs ∧ isJsonWs c = false
      ∧ c ≠ ']' ∧ c ≠ rbraceChar := by
  cases v with
  | null => exact ⟨'n', _, rfl, by decide, by decide, by decide⟩
  | bool b =>
    cases b
    · exact ⟨'f', _, rfl, by decide, by decide, by decide⟩
    · exact ⟨'t', _, rfl, by decide, by decide, by decide⟩
  | num n =>
    show ∃ c cs, intChars n = c :: cs ∧ _
    by_cases hn : n < 0
    · unfold intChars
      rw [if_pos hn]
      exact ⟨'-', _, rfl, by decide, by decide, by decide⟩
    · unfold intChars
      rw [if_neg hn, natChars_eq]
      rcases hdd : bigDigits n.natAbs with _ | ⟨d, ds⟩
      · exact absurd hdd (bigDigits_ne_nil _)
      · have hd10 : d < 10 := bigDigits_lt n.natAbs d (by rw [hdd]; simp)
        refine ⟨digitChar d, List.map digitChar ds, by simp,
          (digitChar_not_special hd10).1, ?_, ?_⟩
        · interval_cases d <;> decide
        · interval_cases d <;> decide
  | str s => exact ⟨quoteChar, _, escString_head s, by decide, by decide, by decide⟩
  | arr es =>
    cases es
    · exact ⟨'[', _, rfl, by decide, by decide, by decide⟩
    · exact ⟨'[', _, rfl, by decide, by decide, by decide⟩
  | obj fs =>
    rcases fs with _ | ⟨⟨k, v⟩, fs⟩
    · exact ⟨lbraceChar, _, rfl, by decide, by decide, by decide⟩
    · exact ⟨lbraceChar, _, rfl, by decide, by decide, by decide⟩

theorem numBoundary_elemsTail (vs : List Json) (rest : List Char) :
    numBoundary (stringifyElemsTail vs ++ ']' :: rest) := by
  cases vs with
  | nil => exact ⟨by decide, by decide, by decide, by decide⟩
  | cons v vs =>
    show numBoundary (',' :: _)
    exact ⟨by decide, by decide, by decide, by decide⟩

theorem numBoundary_fieldsTail (fs : List (String × Json)) (rest : List Char) :
    numBoundary (stringifyFieldsTail fs ++ rbraceChar :: rest) := by
  cases fs with
  | nil => exact ⟨by decide, by decide, by decide, by decide⟩
  | cons kv fs =>
    rcases kv with ⟨k, v⟩
    show numBoundary (',' :: _)
    exact ⟨by decide, by decide, by decide, by decide⟩

/-- Joint round-trip for the four parsing functions, by induction on fuel:
parsing the serialization of a value (element tail, field, field tail)
consumes exactly it and returns it. -/
theorem parse_roundtrip_aux : ∀ fuel : Nat,
    (∀ (v : Json) (rest : List Char), fuelNeed v ≤ fuel → numBoundary rest →
      parseValue fuel (stringifyChars v ++ rest) = some (v, rest))
    ∧ (∀ (vs : List Json) (rest : List Char), elemsNeed vs ≤ fuel → numBoundary rest →
      parseMoreElems fuel (stringifyElemsTail vs ++ (']' :: rest)) = some (vs, rest))
    ∧ (∀ (k : String) (v : Json) (rest : List Char), 1 + fuelNeed v ≤ fuel → numBoundary rest →
      parseField fuel (escString k ++ (':' :: (stringifyChars v ++ rest))) = some ((k, v), rest))
    ∧ (∀ (fs : List (String × Json)) (rest : List Char), fieldsNeed fs ≤ fuel →
      numBoundary rest →
      parseMoreFields fuel (stringifyFieldsTail fs ++ (rbraceChar :: rest)) = some (fs, rest)) := by
  intro fuel
  induction fuel with
  | zero =>
    refine ⟨?_, ?_, ?_, ?_⟩
    · intro v rest h _
      exact absurd (le_trans (fuelNeed_pos v) h) (by norm_num)
    · intro vs rest h _
      exact absurd (le_trans (elemsNeed_pos vs) h) (by norm_num)
    · intro k v rest h _
      exact absurd h (by omega)
    · intro fs rest h _
      exact absurd (le_trans (fieldsNeed_pos fs) h) (by norm_num)
  | succ f ih =>
    obtain ⟨ihV, ihE, ihF, ihFs⟩ := ih
    refine ⟨?_, ?_, ?_, ?_⟩
    · intro v rest hfuel hb
      cases v with
      | null =>
        show parseValue (f + 1) (['n', 'u', 'l', 'l'] ++ rest) = _
        unfold parseValue
        simp only [List.cons_append, List.nil_append]
        rw [skipWs_cons _ (by decide)]
        dsimp only
        simp only [Char.reduceEq, reduceIte]
      | bool b =>
        cases b
        · show parseValue (f + 1) (['f', 'a', 'l', 's', 'e'] ++ rest) = _
          unfold parseValue
          simp only [List.cons_append, List.nil_append]
          rw [skipWs_cons _ (by decide)]
          dsimp only
          simp only [Char.reduceEq, reduceIte]
        · show parseValue (f + 1) (['t', 'r', 'u', 'e'] ++ rest) = _
          unfold parseValue
          simp only [List.cons_append, List.nil_append]
          rw [skipWs_cons _ (by decide)]
          dsimp only
          simp only [Char.reduceEq, reduceIte]
      | num n =>
        show parseValue (f + 1) (intChars n ++ rest) = _
        by_cases hn : n < 0
        · have hic : intChars n = '-' :: natChars n.natAbs := by
            unfold intChars
            rw [if_pos hn]
          rw [hic, List.cons_append]
          unfold parseValue
          rw [skipWs_cons _ (by decide)]
          dsimp only
          rw [if_neg (by decide), if_neg (by decide), if_neg (by decide), if_neg (by decide),
            if_neg (by decide), if_neg (by decide), if_pos (Or.inl rfl)]
          rw [← List.cons_append, ← hic]
          exact parseNumber_intChars n rest hb
        · have hic : intChars n = (bigDigits n.natAbs).map digitChar := by
            unfold intChars
            rw [if_neg hn, natChars_eq]
          obtain ⟨d, ds, hdd⟩ : ∃ d ds, bigDigits n.natAbs = d :: ds := by
            rcases hbd : bigDigits n.natAbs with _ | ⟨d, ds⟩
            · exact absurd hbd (bigDigits_ne_nil _)
            · exact ⟨d, ds, rfl⟩
          have hd10 : d < 10 := bigDigits_lt n.natAbs d (by rw [hdd]; simp)
          obtain ⟨hws, hnn, hnt, hnf, hnq, hnb, hnl, hnm⟩ := digitChar_not_special hd10
          rw [hic, hdd]
          simp only [List.map_cons, List.cons_append]
          unfold parseValue
          rw [skipWs_cons _ hws]
          dsimp only
          rw [if_neg hnn, if_neg hnt, if_neg hnf, if_neg hnq, if_neg hnb, if_neg hnl,
            if_pos (Or.inr (by rw [digitVal_digitChar hd10]; rfl))]
          rw [← List.cons_append, ← List.map_cons, ← hdd, ← hic]
          exact parseNumber_intChars n rest hb
      | str s =>
        obtain ⟨sd⟩ := s
        show parseValue (f + 1)
          ((quoteChar :: ((sd.map escapeChar).flatten ++ [quoteChar])) ++ rest) = _
        simp only [List.cons_append, List.append_assoc, List.singleton_append,
          List.nil_append]
        unfold parseValue
        rw [skipWs_cons _ (by decide)]
        dsimp only
        rw [if_neg (by decide), if_neg (by decide), if_neg (by decide), if_pos rfl]
        have hlen : sd.length < ((sd.map escapeChar).flatten ++ quoteChar :: rest).length + 1 := by
          have := flatten_escape_length sd
          simp only [List.length_append, List.length_cons]
          omega
        rw [parseStringBody_escString sd _ rest hlen]
      | arr es =>
        cases es with
        | nil =>
          show parseValue (f + 1) (['[', ']'] ++ rest) = _
          unfold parseValue
          simp only [List.cons_append, List.nil_append]
          rw [skipWs_cons _ (by decide)]
          dsimp only
          rw [if_neg (by decide), if_neg (by decide), if_neg (by decide), if_neg (by decide),
            if_pos rfl, skipWs_cons _ (by decide)]
          dsimp only
          rw [if_pos rfl]
        | cons v vs =>
          obtain ⟨c1, cs1, hc1, hws1, hbr1, _⟩ := stringify_head v
          have hne1 : elemsNeed vs ≤ f := by
            simp only [fuelNeed] at hfuel
            have := fuelNeed_pos v
            omega
          have hnv : fuelNeed v ≤ f := by
            simp only [fuelNeed] at hfuel
            have := elemsNeed_pos vs
            omega
          have hstr : stringifyChars (.arr (v :: vs)) =
              '[' :: (stringifyChars v ++ stringifyElemsTail vs) ++ [']'] := rfl
          rw [hstr]
          simp only [List.cons_append, List.append_assoc, List.singleton_append,
            List.nil_append]
          unfold parseValue
          rw [skipWs_cons _ (by decide)]
          dsimp only
          rw [if_neg (by decide), if_neg (by decide), if_neg (by decide), if_neg (by decide),
            if_pos rfl]
          rw [hc1, List.cons_append, skipWs_cons _ hws1]
          dsimp only
          rw [if_neg hbr1, ← List.cons_append, ← hc1,
            ihV v (stringifyElemsTail vs ++ (']' :: rest)) hnv (numBoundary_elemsTail vs rest)]
          dsimp only
          rw [ihE vs rest hne1 hb]
      | obj fs =>
        rcases fs with _ | ⟨⟨k, v⟩, fs⟩
        · show parseValue (f + 1) ([lbraceChar, rbraceChar] ++ rest) = _
          unfold parseValue
          simp only [List.cons_append, List.nil_append]
          rw [skipWs_cons _ (by decide)]
          dsimp only
          rw [if_neg (by decide), if_neg (by decide), if_neg (by decide), if_neg (by decide),
            if_neg (by decide), if_pos rfl, skipWs_cons _ (by decide)]
          dsimp only
          rw [if_pos rfl]
        · have hnv : 1 + fuelNeed v ≤ f := by
            simp only [fuelNeed] at hfuel
            have := fieldsNeed_pos fs
            omega
          have hnfs : fieldsNeed fs ≤ f := by
            simp only [fuelNeed] at hfuel
            have := fuelNeed_pos v
            omega
          have hstr : stringifyChars (.obj ((k, v) :: fs)) =
              lbraceChar :: (escString k ++ ':' :: stringifyChars v ++ stringifyFieldsTail fs)
                ++ [rbraceChar] := rfl
          rw [hstr]
          simp only [List.cons_append, List.append_assoc, List.singleton_append,
            List.nil_append]
          unfold parseValue
          rw [skipWs_cons _ (by decide)]
          dsimp only
          rw [if_neg (by decide), if_neg (by decide), if_neg (by decide), if_neg (by decide),
            if_neg (by decide), if_pos rfl]
          rw [escString_head, List.cons_append, skipWs_cons _ (by decide)]
          dsimp only
          rw [if_neg (by decide), ← List.cons_append, ← escString_head,
            ihF k v (stringifyFieldsTail fs ++ (rbraceChar :: rest)) hnv
              (numBoundary_fieldsTail fs rest)]
          dsimp only
          rw [ihFs fs rest hnfs hb]
    · intro vs rest h hb
      cases vs with
      | nil =>
        show parseMoreElems (f + 1) ([] ++ (']' :: rest)) = _
        simp only [List.nil_append]
        unfold parseMoreElems
        rw [skipWs_cons _ (by decide)]
        dsimp only
        rw [if_pos rfl]
      | cons v vs =>
        have hnv : fuelNeed v ≤ f := by
          simp only [elemsNeed] at h
          have := elemsNeed_pos vs
          omega
        have hne : elemsNeed vs ≤ f := by
          simp only [elemsNeed] at h
          have := fuelNeed_pos v
          omega
        have hstr : stringifyElemsTail (v :: vs) =
            ',' :: stringifyChars v ++ stringifyElemsTail vs := rfl
        rw [hstr]
        simp only [List.cons_append, List.append_assoc, List.nil_append]
        unfold parseMoreElems
        rw [skipWs_cons _ (by decide)]
        dsimp only
        rw [if_neg (by decide), if_pos rfl,
          ihV v (stringifyElemsTail vs ++ (']' :: rest)) hnv (numBoundary_elemsTail vs rest)]
        dsimp only
        rw [ihE vs rest hne hb]
    · intro k v rest h hb
      obtain ⟨kd⟩ := k
      have hnv : fuelNeed v ≤ f := by omega
      rw [escString_head, List.cons_append]
      dsimp only
      simp only [List.append_assoc, List.singleton_append, List.nil_append]
      unfold parseField
      rw [skipWs_cons _ (by decide)]
      dsimp only
      rw [if_pos rfl]
      have hlen : kd.length <
          ((kd.map escapeChar).flatten ++
            quoteChar :: (':' :: (stringifyChars v ++ rest))).length + 1 := by
        have := flatten_escape_length kd
        simp only [List.length_append, List.length_cons]
        omega
      rw [parseStringBody_escString kd _ _ hlen]
      dsimp only
      rw [skipWs_cons _ (by decide)]
      dsimp only
      rw [if_pos rfl, ihV v rest hnv hb]
    · intro fs rest h hb
      rcases fs with _ | ⟨⟨k, v⟩, fs⟩
      · show parseMoreFields (f + 1) ([] ++ (rbraceChar :: rest)) = _
        simp only [List.nil_append]
        unfold parseMoreFields
        rw [skipWs_cons _ (by decide)]
        dsimp only
        rw [if_pos rfl]
      · have hnv : 1 + fuelNeed v ≤ f := by
          simp only [fieldsNeed] at h
          have := fieldsNeed_pos fs
          omega
        have hnfs : fieldsNeed fs ≤ f := by
          simp only [fieldsNeed] at h
          have := fuelNeed_pos v
          omega
        have hstr : stringifyFieldsTail ((k, v) :: fs) =
            ',' :: escString k ++ ':' :: stringifyChars v ++ stringifyFieldsTail fs := rfl
        rw [hstr]
        simp only [List.cons_append, List.append_assoc, List.nil_append]
        unfold parseMoreFields
        rw [skipWs_cons _ (by decide)]
        dsimp only
        rw [if_neg (by decide), if_pos rfl,
          ihF k v (stringifyFieldsTail fs ++ (rbraceChar :: rest)) hnv
            (numBoundary_fieldsTail fs rest)]
        dsimp only
        rw [ihFs fs rest hnfs hb]

/-- Key fact about the JSON collaborators: parsing a serialized value yields
it back, so a cached response replayed through `JSON.parse` and re-serialized
is byte-identical to what was stored. -/
theorem JSONparse_stringify (v : Json) : JSONparse (JSONstringify v) = some v := by
  unfold JSONparse JSONstringify
  have hb : numBoundary ([] : List Char) := trivial
  have hfuel : fuelNeed v ≤ (stringifyChars v).length + 1 :=
    le_trans (fuelNeed_le_length v) (Nat.le_succ _)
  have h := (parse_roundtrip_aux ((stringifyChars v).length + 1)).1 v [] hfuel hb
  rw [List.append_nil] at h
  show (match parseValue ((stringifyChars v).length + 1) (stringifyChars v) with
    | some (v, rest) => if skipWs rest = [] then some v else none
    | none => none) = some v
  rw [h]
  rfl

/-- **C5**: when an `IdempotencyRecord` exists for the request's key, the
stored response is returned as-is: the status is the stored status, the body
sent is the parse of the stored body, the whole store — reservations,
counter, cache — is left untouched (the reservation ledger is never invoked),
and the re-serialized reply is byte-identical to the stored body, on this and
on every later retry. -/
theorem C5_cache_hit_replay (key : String) (body : Json) (now : Time) (st : Store)
    (rec : IdempotencyRecord) (v : Json)
    (hklen : 1 ≤ key.length ∧ key.length ≤ 255)
    (hrec : getIdempotencyRecord st key = some rec)
    (hbody : rec.response_body = JSONstringify v) :
    postReserve (some key) body now st = ({ status := rec.response_status, body := v }, st)
    ∧ JSONstringify (postReserve (some key) body now st).1.body = rec.response_body := by
  have hk : ¬(key.length < 1 ∨ key.length > 255) := by omega
  have hmain : postReserve (some key) body now st =
      ({ status := rec.response_status, body := v }, st) := by
    unfold postReserve
    dsimp only
    rw [if_neg hk, hrec]
    dsimp only
    rw [hbody, JSONparse_stringify]
    rfl
  exact ⟨hmain, by rw [hmain, ← hbody]⟩

/-- Witness for C5 at a concrete cached 201 response. -/
theorem C5_witness :
    postReserve (some "k") (.obj []) 7
        ⟨[⟨1, "A1", 1, true⟩], [], 1,
         [⟨"k", 201, JSONstringify (.obj [("success", .bool true)]), 5⟩]⟩ =
      ({ status := 201, body := .obj [("success", .bool true)] },
       ⟨[⟨1, "A1", 1, true⟩], [], 1,
        [⟨"k", 201, JSONstringify (.obj [("success", .bool true)]), 5⟩]⟩)
    ∧ JSONstringify (postReserve (some "k") (.obj []) 7
        ⟨[⟨1, "A1", 1, true⟩], [], 1,
         [⟨"k", 201, JSONstringify (.obj [("success", .bool true)]), 5⟩]⟩).1.body =
      (⟨"k", 201, JSONstringify (.obj [("success", .bool true)]), 5⟩ :
        IdempotencyRecord).response_body :=
  C5_cache_hit_replay "k" (.obj []) 7
    ⟨[⟨1, "A1", 1, true⟩], [], 1,
     [⟨"k", 201, JSONstringify (.obj [("success", .bool true)]), 5⟩]⟩
    ⟨"k", 201, JSONstringify (.obj [("success", .bool true)]), 5⟩
    (.obj [("success", .bool true)]) ⟨by decide, by decide⟩ (by rfl) (by rfl)

/-- **C10**: once a response is cached under a key, later replies depend only
on the key, not on the request body or clock: with a record present, any two
requests under that key get identical replies and leave the state unchanged.
Moreover the `res.json` capture is installed before body validation runs, so
a 400 validation-failure response is itself cached: a retry with a corrected
body under the same key still receives the original 400 reply. -/
theorem C10_cached_response_key_only :
    (∀ (key : String) (b1 b2 : Json) (n1 n2 : Time) (st : Store) (rec : IdempotencyRecord),
      getIdempotencyRecord st key = some rec →
      postReserve (some key) b1 n1 st = postReserve (some key) b2 n2 st)
    ∧ (∀ (key : String) (b1 b2 : Json) (n1 n2 : Time) (st : Store) (issues : Json),
      1 ≤ key.length → key.length ≤ 255 →
      getIdempotencyRecord st key = none →
      parseReservationRequest b1 = .error issues →
      (postReserve (some key) b1 n1 st).1.status = 400
      ∧ (postReserve (some key) b2 n2 (postReserve (some key) b1 n1 st).2).1 =
          (postReserve (some key) b1 n1 st).1) := by
  constructor
  · intro key b1 b2 n1 n2 st rec hrec
    unfold postReserve
    dsimp only
    by_cases hk : key.length < 1 ∨ key.length > 255
    · rw [if_pos hk, if_pos hk]
    · rw [if_neg hk, if_neg hk, hrec]
  · intro key b1 b2 n1 n2 st issues h1 h2 hnone hparse
    have hk : ¬(key.length < 1 ∨ key.length > 255) := by omega
    have hany : st.idempotencyKeys.any (fun r => r.key == key) = false := by
      rw [List.any_eq_false]
      intro r hr
      exact List.find?_eq_none.mp hnone r hr
    have hrun1 : postReserve (some key) b1 n1 st =
        ({ status := 400,
           body := .obj [("success", .bool false), ("error", .str "Invalid request body"),
                         ("details", issues)] },
         { st with idempotencyKeys := st.idempotencyKeys ++
            [{ key := key, response_status := 400,
               response_body := JSONstringify
                 (.obj [("success", .bool false), ("error", .str "Invalid request body"),
                        ("details", issues)]),
               created_at := n1 }] }) := by
      unfold postReserve
      dsimp only
      rw [if_neg hk, hnone]
      dsimp only
      unfold reserveRoute
      rw [hparse]
      dsimp only
      unfold saveIdempotencyRecord
      simp only [hany, Bool.false_eq_true, if_false]
    refine ⟨by rw [hrun1], ?_⟩
    rw [hrun1]
    dsimp only
    have hfind : getIdempotencyRecord
        { st with idempotencyKeys := st.idempotencyKeys ++
            [{ key := key, response_status := 400,
               response_body := JSONstringify
                 (.obj [("success", .bool false), ("error", .str "Invalid request body"),
                        ("details", issues)]),
               created_at := n1 }] } key =
        some { key := key, response_status := 400,
               response_body := JSONstringify
                 (.obj [("success", .bool false), ("error", .str "Invalid request body"),
                        ("details", issues)]),
               created_at := n1 } := by
      unfold getIdempotencyRecord at hnone ⊢
      rw [List.find?_append, hnone]
      simp
    unfold postReserve
    dsimp only
    rw [if_neg hk, hfind]
    dsimp only
    rw [JSONparse_stringify]
    rfl

/-- Witness for C10: an invalid body (missing fields) under key "k" is
answered 400 and cached; a retry with a valid body and the same key receives
the identical 400 reply. -/
theorem C10_witness :
    (postReserve (some "k") (.obj []) 3 ⟨[⟨1, "A1", 1, true⟩], [], 1, []⟩).1.status = 400
    ∧ (postReserve (some "k")
        (.obj [("spotId", .num 1), ("customerName", .str "Al"),
               ("customerEmail", .str "a@b.c"), ("startTime", .str "10"),
               ("endTime", .str "20")]) 4
        (postReserve (some "k") (.obj []) 3 ⟨[⟨1, "A1", 1, true⟩], [], 1, []⟩).2).1 =
      (postReserve (some "k") (.obj []) 3 ⟨[⟨1, "A1", 1, true⟩], [], 1, []⟩).1 :=
  C10_cached_response_key_only.2 "k" (.obj [])
    (.obj [("spotId", .num 1), ("customerName", .str "Al"),
           ("customerEmail", .str "a@b.c"), ("startTime", .str "10"),
           ("endTime", .str "20")]) 3 4 ⟨[⟨1, "A1", 1, true⟩], [], 1, []⟩
    (.arr [.str "spotId", .str "customerName", .str "customerEmail",
           .str "startTime", .str "endTime"])
    (by decide) (by decide) (by rfl) (by rfl)

end CarPark
